import Mathlib

/-! # openufp: blacklist backend and request dispatch

A shallow embedding of `blacklist.c` and of the per-connection loop of
`main` in `openufp.c`.

Conventions of the embedding:

* a C `char` is a Lean `Char`; a NUL-terminated C string is the list of its
  characters before the terminator (`Str`);
* the array `char blacklist[BLACKLIST_MAXSIZE][URL_SIZE]` is a map from the row
  index to the string stored in that row;
* `syslog` output is not modelled (it has no effect on control flow);
* `main` hands `blacklist_backend` the `char *` argument of `-f`; what the backend
  reads after that string is memory `main` never set up, which may be unreadable,
  and reading it kills the process (`Event.sigsegv`);
* `URL_SIZE`, declared in `openufp.h`, is a parameter wherever it matters.
-/

namespace OpenUFP

/-- The characters of a NUL-terminated C string, terminator excluded. -/
abbrev Str := List Char

/-- The macro `BLACKLIST_MAXSIZE` of `blacklist.h`. -/
def BLACKLIST_MAXSIZE : Nat := 10000

/-- The rows of `char blacklist[BLACKLIST_MAXSIZE][URL_SIZE]`, by index. -/
abbrev Blacklist := Nat → Str

/-- The all-empty array (every row starts with NUL). -/
def emptyBlacklist : Blacklist := fun _ => []

/-- The array after a string has been stored in row `i`. -/
def setRow (bl : Blacklist) (i : Nat) (s : Str) : Blacklist :=
  fun j => if j = i then s else bl j

/-! ## libc -/

/-- The C string held in a buffer: the characters before the first NUL. -/
def cstr (buf : List Char) : Str := buf.takeWhile (fun c => c ≠ '\x00')

/-- The function `strlen`. -/
def strlen (s : Str) : Nat := s.length

/-- The function `strstr haystack needle`: the offset of the first occurrence of
`needle` in `haystack`, `none` for the NULL result. -/
def strstr : Str → Str → Option Nat
  | [], needle => if needle = [] then some 0 else none
  | c :: h, needle =>
    if needle.isPrefixOf (c :: h) then some 0
    else (strstr h needle).map (fun k => k + 1)

/-- The function `isspace` in the C locale. -/
def isspace (c : Char) : Bool :=
  c = ' ' || c = '\t' || c = '\n' || c = '\x0b' || c = '\x0c' || c = '\r'

/-- What `fgets` moves into the buffer when it may store up to `k` characters:
the characters up to and including the first newline, at most `k` of them; the
second component is what is left of the stream. -/
def fgets_take : Nat → List Char → List Char × List Char
  | 0, cs => ([], cs)
  | _ + 1, [] => ([], [])
  | k + 1, c :: cs =>
    if c = '\n' then ([c], cs)
    else ((c :: (fgets_take k cs).1), (fgets_take k cs).2)

/-- The call `fgets(line, size, fd)` on a stream with `fd` left to read: `none`
is the NULL result at end of file, otherwise the line buffer and the rest of the
stream. At most `size - 1` characters are stored. -/
def fgets (size : Nat) (fd : List Char) : Option (List Char × List Char) :=
  match fd with
  | [] => none
  | _ :: _ => some (fgets_take (size - 1) fd)

/-- The call `sscanf(line, "%s", dst)`: skips white space, then stores the
maximal run of characters that are not white space; `none` when nothing is
stored (the result is not 1). The line is read as a C string. -/
def sscanf_s (line : List Char) : Option Str :=
  let tok := ((cstr line).dropWhile isspace).takeWhile (fun c => !isspace c)
  if tok = [] then none else some tok

/-! ## blacklist.c -/

/-- The `while (fgets ...)` loop of `blacklist_load`, with `index` and the array
as loop state. `some (r, bl)` is a return of `r` with the array left as `bl`;
`none` means the fuel ran out before the loop ended. `linenum` only feeds a log
line and is left out. -/
def blacklist_load_loop (URL_SIZE : Nat) :
    Nat → List Char → Nat → Blacklist → Option (Int × Blacklist)
  | 0, _, _, _ => none
  | fuel + 1, fd, index, bl =>
    match fgets URL_SIZE fd with
    | none => some (0, bl)
    | some (line, rest) =>
      if line.head? = some '#' ∨ line.head? = some '\n' then
        blacklist_load_loop URL_SIZE fuel rest index bl
      else
        match sscanf_s line with
        | none => blacklist_load_loop URL_SIZE fuel rest index bl
        | some tok =>
          if index + 1 = BLACKLIST_MAXSIZE then some (-1, setRow bl index tok)
          else blacklist_load_loop URL_SIZE fuel rest (index + 1) (setRow bl index tok)

/-- The function `blacklist_load`. The file is `none` when `fopen` fails, else
its contents. Every pass of the loop consumes input when `2 ≤ URL_SIZE`, so one
unit of fuel per character and one for the final `fgets` is enough. -/
def blacklist_load (URL_SIZE : Nat) (blacklist_file : Option (List Char))
    (blacklist : Blacklist) : Option (Int × Blacklist) :=
  match blacklist_file with
  | none => some (-1, blacklist)
  | some fd => blacklist_load_loop URL_SIZE (fd.length + 1) fd 0 blacklist

/-- The `for` loop of `blacklist_backend` from `index` on; the fuel counts the
passes still allowed. -/
def blacklist_backend_loop (blacklist : Blacklist) (url : Str) : Nat → Nat → Int
  | 0, _ => 0
  | fuel + 1, index =>
    if index < BLACKLIST_MAXSIZE ∧ strlen (blacklist index) > 0 then
      if (strstr url (blacklist index)).isSome then 1
      else blacklist_backend_loop blacklist url fuel (index + 1)
    else 0

/-- The function `blacklist_backend`. The loop leaves at `index = BLACKLIST_MAXSIZE`
at the latest, so `BLACKLIST_MAXSIZE + 1` passes are never used up. -/
def blacklist_backend (blacklist : Blacklist) (url : Str) (_debug : Int) : Int :=
  blacklist_backend_loop blacklist url (BLACKLIST_MAXSIZE + 1) 0

/-- Memory read as the rows of a blacklist array when not all of it is readable:
`none` is a row whose string cannot be read, the read is a fault. -/
abbrev Rows := Nat → Option Str

/-- The `for` loop of `blacklist_backend` on rows that need not be readable: the
test `index < BLACKLIST_MAXSIZE` comes first, then `strlen` reads the row, and the
process faults (`none`) when the row is unreadable. -/
def blacklist_backend_loop_at (rows : Rows) (url : Str) : Nat → Nat → Option Int
  | 0, _ => some 0
  | fuel + 1, index =>
    if index < BLACKLIST_MAXSIZE then
      match rows index with
      | none => none
      | some row =>
        if strlen row > 0 then
          if (strstr url row).isSome then some 1
          else blacklist_backend_loop_at rows url fuel (index + 1)
        else some 0
    else some 0

/-- The function `blacklist_backend` called on a pointer into memory that need
not be readable throughout: `none` is the fault, `some r` the return of `r`. On
rows that are all readable it is `blacklist_backend`. -/
def blacklist_backend_at (rows : Rows) (url : Str) (_debug : Int) : Option Int :=
  blacklist_backend_loop_at rows url (BLACKLIST_MAXSIZE + 1) 0

/-! ## openufp.c: the per-connection loop of `main`

`openufp.h` and the files behind the other backends, the cache and the two
frontends are not part of the sources read here. Their functions are fields of
`Externals`; what they do to the outside world (cache database, network, clock)
is a state `W` threaded through every call, so nothing is assumed about them.
Every call that `main` makes is recorded as an `Event`. -/

/-- The buffer `char hash[10]`. -/
abbrev Hash := Str

/-- The buffer `char msg[REQ_SIZE]` as filled by `recvfrom`. -/
abbrev Msg := List Char

/-- A cache handle `DB *` that is not NULL. -/
abbrev DB := Nat

/-- The values `N2H2` and `WEBSNS` of `frontend`; `main` leaves before the loop
when `frontend` is still 0. -/
inductive Frontend
  | N2H2
  | WEBSNS
  deriving DecidableEq, Repr

/-- The request types of `openufp.h` that `main` tests for. -/
inductive ReqType
  | UNKNOWN
  | N2H2_REQ
  | N2H2_ALIVE
  | WEBSNS_REQ
  | WEBSNS_ALIVE
  deriving DecidableEq, Repr

/-- The struct `uf_request`, with the fields `main` reads. -/
structure uf_request where
  type : ReqType
  srcip : Str
  dstip : Str
  usr : Str
  url : Str
  deriving DecidableEq, Repr

/-- The option variables of `main` as they stand after the `getopt` loop.
`blacklist` is the argument of `-f`, a `char *`. `blacklist_beyond i` is the
string that starts `(i + 1) * URL_SIZE` bytes after that pointer, `none` when the
memory there cannot be read: `main` passes the pointer where `blacklist_backend`
expects the array, so these are the rows the backend reads after row 0, outside
the argument. -/
structure Options where
  redirect_url : Option Str
  cache_exp_secs : Int
  debug : Int
  frontend : Frontend
  proxy_ip : Option Str
  proxy_port : Int
  proxy_deny_pattern : Option Str
  blacklist : Option Str
  blacklist_beyond : Nat → Option Str
  squidguard : Int

/-- The rows `blacklist_backend` sees through the pointer `main` hands it: row 0
starts at the pointer itself, so it is the argument of `-f`. -/
def blacklist_rows (optarg : Str) (beyond : Nat → Option Str) : Rows
  | 0 => some optarg
  | i + 1 => beyond i

/-- The last argument of `n2h2_deny` and `websns_deny`: which variable is passed
and what it holds. -/
inductive Redirect
  | sg_redirect (buf : Str)
  | redirect_url (url : Option Str)
  deriving DecidableEq, Repr

/-- One call made by the child process, or the signal that kills it. A request
pointer is `none` when NULL, else the message it points to. -/
inductive Event
  | sigsegv
  | open_cache
  | close_cache (db : Option DB)
  | close_cli
  | exit (code : Int)
  | n2h2_alive (req : Option Msg)
  | websns_alive (req : Option Msg)
  | get_hash (url : Str)
  | in_cache (db : Option DB) (hash : Hash) (exp : Int)
  | blacklist_backend (url : Str)
  | proxy_backend (ip : Str) (port : Int) (pattern : Option Str) (url : Str)
  | squidguard_backend (srcip usr url : Str)
  | n2h2_deny (req : Option Msg) (redirect : Redirect)
  | websns_deny (req : Option Msg) (redirect : Redirect)
  | n2h2_accept (req : Option Msg)
  | websns_accept (req : Option Msg)
  | add_cache (db : Option DB) (hash : Hash)
  deriving DecidableEq, Repr

/-- The functions `main` calls that are defined outside `openufp.c` and
`blacklist.c`. `squidguard_backend` gets the buffer `sg_redirect` and returns
what the buffer holds afterwards. -/
structure Externals (W : Type) where
  n2h2_validate : Msg → Int → uf_request
  websns_convert : Msg → Int → Msg
  websns_validate : Msg → Int → uf_request
  get_hash : Str → Hash
  open_cache : W → Option DB × W
  in_cache : Option DB → Hash → Int → W → Int × W
  add_cache : Option DB → Hash → W → W
  proxy_backend : Str → Int → Option Str → Str → W → Int × W
  squidguard_backend : Str → Str → Str → Str → W → (Int × Str) × W

/-- The variables of the child process that live across loop passes. The two
request pointers are NULL (`false`) or point to `msg` (`true`). -/
structure Locals where
  denied : Int
  cached : Int
  cachedb : Option DB
  hash : Hash
  n2h2_request : Bool
  websns_request : Bool
  sg_redirect : Str
  deriving DecidableEq, Repr

/-- What a request pointer refers to. -/
def deref (set : Bool) (msg : Msg) : Option Msg := if set then some msg else none

/-- The state carried through the three backend blocks of one URL request;
`killed` is set when the process has faulted. -/
structure Chain (W : Type) where
  denied : Int
  sg_redirect : Str
  world : W
  trace : List Event
  killed : Bool

/-- Lines 280-283: the blacklist block. The argument handed to `blacklist_backend`
is the `char *` of `-f`, so the call may read unreadable memory and fault. -/
def blacklist_block {W : Type} (o : Options) (request : uf_request) (cached : Int)
    (c : Chain W) : Chain W :=
  match o.blacklist with
  | some optarg =>
    if cached = 0 ∧ c.denied = 0 then
      match blacklist_backend_at (blacklist_rows optarg o.blacklist_beyond) request.url
          o.debug with
      | some r =>
        { c with denied := r, trace := c.trace ++ [Event.blacklist_backend request.url] }
      | none =>
        { c with killed := true, trace := c.trace ++ [Event.blacklist_backend request.url] }
    else c
  | none => c

/-- Lines 285-288: the proxy block. -/
def proxy_block {W : Type} (o : Options) (x : Externals W) (request : uf_request)
    (cached : Int) (c : Chain W) : Chain W :=
  match o.proxy_ip with
  | some ip =>
    if cached = 0 ∧ c.denied = 0 then
      { c with
        denied := (x.proxy_backend ip o.proxy_port o.proxy_deny_pattern request.url c.world).1
        world := (x.proxy_backend ip o.proxy_port o.proxy_deny_pattern request.url c.world).2
        trace := c.trace ++
          [Event.proxy_backend ip o.proxy_port o.proxy_deny_pattern request.url] }
    else c
  | none => c

/-- Lines 290-293: the squidguard block. -/
def squidguard_block {W : Type} (o : Options) (x : Externals W) (request : uf_request)
    (cached : Int) (c : Chain W) : Chain W :=
  if cached = 0 ∧ c.denied = 0 ∧ o.squidguard ≠ 0 then
    { denied :=
        (x.squidguard_backend request.srcip request.usr request.url c.sg_redirect c.world).1.1
      sg_redirect :=
        (x.squidguard_backend request.srcip request.usr request.url c.sg_redirect c.world).1.2
      world :=
        (x.squidguard_backend request.srcip request.usr request.url c.sg_redirect c.world).2
      trace := c.trace ++ [Event.squidguard_backend request.srcip request.usr request.url]
      killed := c.killed }
  else c

/-- Lines 296-304: the deny reply. -/
def deny_reply (o : Options) (l : Locals) (msg : Msg) (sg_redirect : Str) : Event :=
  if o.frontend = Frontend.N2H2 ∧ o.squidguard ≠ 0 then
    Event.n2h2_deny (deref l.n2h2_request msg) (Redirect.sg_redirect sg_redirect)
  else if o.frontend = Frontend.WEBSNS ∧ o.squidguard ≠ 0 then
    Event.websns_deny (deref l.websns_request msg) (Redirect.sg_redirect sg_redirect)
  else if o.frontend = Frontend.N2H2 then
    Event.n2h2_deny (deref l.n2h2_request msg) (Redirect.redirect_url o.redirect_url)
  else
    Event.websns_deny (deref l.websns_request msg) (Redirect.redirect_url o.redirect_url)

/-- Lines 311-315: the accept reply. -/
def accept_reply (o : Options) (l : Locals) (msg : Msg) : Event :=
  if o.frontend = Frontend.N2H2 then Event.n2h2_accept (deref l.n2h2_request msg)
  else Event.websns_accept (deref l.websns_request msg)

/-- Lines 277-323: the URL request from the point where `in_cache` has returned
`ret` and left the world as `w`. The second component is `none` when the process
was killed inside `blacklist_backend`: nothing after the call is run. -/
def after_lookup {W : Type} (o : Options) (x : Externals W) (msg : Msg)
    (request : uf_request) (l : Locals) (hash : Hash) (ret : Int) (w : W) :
    List Event × Option (Locals × W) :=
  let cached : Int := if ret = -1 then 0 else ret
  let b := blacklist_block o request cached
    { denied := l.denied, sg_redirect := l.sg_redirect, world := w, trace := [],
      killed := false }
  if b.killed = true then
    (b.trace ++ [Event.sigsegv], none)
  else
    let c := squidguard_block o x request cached (proxy_block o x request cached b)
    let l1 : Locals :=
      { l with denied := 0, cached := cached, hash := hash, sg_redirect := c.sg_redirect }
    if c.denied ≠ 0 then
      (c.trace ++ [deny_reply o l msg c.sg_redirect], some (l1, c.world))
    else if cached = 0 then
      (c.trace ++ [accept_reply o l msg, Event.add_cache l.cachedb hash],
        some (l1, x.add_cache l.cachedb hash c.world))
    else
      (c.trace ++ [accept_reply o l msg], some (l1, c.world))

/-- Lines 262-324: the URL request block. -/
def url_request {W : Type} (o : Options) (x : Externals W) (msg : Msg)
    (request : uf_request) (l : Locals) (w : W) : List Event × Option (Locals × W) :=
  let hash := x.get_hash request.url
  let r := x.in_cache l.cachedb hash o.cache_exp_secs w
  let a := after_lookup o x msg request l hash r.1 r.2
  (Event.get_hash request.url :: Event.in_cache l.cachedb hash o.cache_exp_secs :: a.1, a.2)

/-- Lines 226-241: the message as the request pointer sees it after validation,
and the request the frontend made of it. -/
def decode {W : Type} (o : Options) (x : Externals W) (msgsize : Int) (msg : Msg) :
    Msg × uf_request :=
  match o.frontend with
  | Frontend.N2H2 => (msg, x.n2h2_validate msg msgsize)
  | Frontend.WEBSNS =>
    (x.websns_convert msg msgsize, x.websns_validate (x.websns_convert msg msgsize) msgsize)

/-- Lines 226-241: the request pointer of the configured frontend is set. -/
def set_pointer (o : Options) (l : Locals) : Locals :=
  match o.frontend with
  | Frontend.N2H2 => { l with n2h2_request := true }
  | Frontend.WEBSNS => { l with websns_request := true }

/-- Lines 216-324: one pass of the inner `for(;;)`, on a `recvfrom` that returned
`msgsize` and filled the buffer with `msg`. The second component is `none` when
the process has exited or was killed, else the state in which the next message is
awaited. -/
def session_step {W : Type} (o : Options) (x : Externals W) (msgsize : Int) (msg : Msg)
    (l : Locals) (w : W) : List Event × Option (Locals × W) :=
  if msgsize < 1 then
    ([Event.close_cache l.cachedb, Event.close_cli, Event.exit 1], none)
  else
    let l1 := set_pointer o l
    let d := decode o x msgsize msg
    match d.2.type with
    | ReqType.UNKNOWN => ([Event.close_cache l.cachedb, Event.close_cli, Event.exit 1], none)
    | ReqType.N2H2_ALIVE => ([Event.n2h2_alive (deref l1.n2h2_request d.1)], some (l1, w))
    | ReqType.WEBSNS_ALIVE => ([Event.websns_alive (deref l1.websns_request d.1)], some (l1, w))
    | ReqType.N2H2_REQ => url_request o x d.1 d.2 l1 w
    | ReqType.WEBSNS_REQ => url_request o x d.1 d.2 l1 w

/-- The inner `for(;;)` over the results of successive `recvfrom` calls. When
the list is used up the process is blocked in `recvfrom`. -/
def session_loop {W : Type} (o : Options) (x : Externals W) :
    List (Int × Msg) → Locals → W → List Event × Option (Locals × W)
  | [], l, w => ([], some (l, w))
  | (msgsize, msg) :: rest, l, w =>
    match session_step o x msgsize msg l w with
    | (tr, none) => (tr, none)
    | (tr, some (l1, w1)) =>
      (tr ++ (session_loop o x rest l1 w1).1, (session_loop o x rest l1 w1).2)

/-- Lines 199-214: the child process up to the loop. `sg0` and `hash0` are what
the uninitialised buffers `sg_redirect` and `hash` happen to hold. -/
def child_start {W : Type} (o : Options) (x : Externals W) (sg0 : Str) (hash0 : Hash)
    (w : W) : List Event × Locals × W :=
  if o.cache_exp_secs > 0 then
    ([Event.open_cache],
      { denied := 0, cached := 0, cachedb := (x.open_cache w).1, hash := hash0,
        n2h2_request := false, websns_request := false, sg_redirect := sg0 },
      (x.open_cache w).2)
  else
    ([],
      { denied := 0, cached := 0, cachedb := none, hash := hash0,
        n2h2_request := false, websns_request := false, sg_redirect := sg0 }, w)

/-- Lines 198-326: the child process serving one connection. -/
def child {W : Type} (o : Options) (x : Externals W) (sg0 : Str) (hash0 : Hash) (w : W)
    (inputs : List (Int × Msg)) : List Event × Option (Locals × W) :=
  let s := child_start o x sg0 hash0 w
  let r := session_loop o x inputs s.2.1 s.2.2
  (s.1 ++ r.1, r.2)

/-- The array that holds `entries` in its first rows and is empty after them. -/
def ofEntries (entries : List Str) : Blacklist := fun i => entries.getD i []

/-! ## The blacklist file as the specification reads it

Stated from the words of the specification, to be compared with
`blacklist_load`: the file is a sequence of lines; a line whose first character
is `#` and a line without a token are ignored; every other line contributes its
first white-space-delimited token. -/

/-- The first line of a text (newline excluded) and the text after it. -/
def first_line : List Char → List Char × List Char
  | [] => ([], [])
  | c :: cs => if c = '\n' then ([], cs) else (c :: (first_line cs).1, (first_line cs).2)

/-- The lines of a text, newlines excluded; a final newline does not open
another line. -/
def file_lines : List Char → List (List Char)
  | [] => []
  | c :: cs =>
    if c = '\n' then [] :: file_lines cs
    else
      match file_lines cs with
      | [] => [[c]]
      | l :: ls => (c :: l) :: ls

/-- The first white-space-delimited token of a line, if it has one. -/
def first_token (l : List Char) : Option Str :=
  let tok := (l.dropWhile isspace).takeWhile (fun c => !isspace c)
  if tok = [] then none else some tok

/-- The entry a line contributes: none for a comment line (first character `#`)
and for a blank line. -/
def entry_of_line (l : List Char) : Option Str :=
  if l.head? = some '#' then none else first_token l

/-- The entries of a blacklist file, in file order. -/
def file_entries (file : List Char) : List Str :=
  (file_lines file).filterMap entry_of_line

/-- What the loop of `blacklist_load` does with the successive tokens it
obtains: each is stored at `index`, and the loop returns -1 as soon as `index`
reaches `BLACKLIST_MAXSIZE`. -/
def store_entries : Blacklist → Nat → List Str → Int × Blacklist
  | bl, _, [] => (0, bl)
  | bl, index, e :: es =>
    if index + 1 = BLACKLIST_MAXSIZE then (-1, setRow bl index e)
    else store_entries (setRow bl index e) (index + 1) es

/-- The test the loop of `blacklist_load` applies to one line buffer: the token
it stores, or `none` when the line is skipped. -/
def scan_line (line : List Char) : Option Str :=
  if line.head? = some '#' ∨ line.head? = some '\n' then none else sscanf_s line

/-- The lines of a file all fit, newline included, in what `fgets` may store in a
buffer of `URL_SIZE` bytes. -/
def ShortLines (URL_SIZE : Nat) (fd : List Char) : Prop := ∀ l ∈ file_lines fd, l.length + 1 < URL_SIZE

/-- The statement that `blacklist_load`, applied to the all-empty array, stores
the entries of `file` in file order in the first rows and leaves every later row
empty, provided the file has at most `BLACKLIST_MAXSIZE` entries. -/
def LoadsFileEntries (URL_SIZE : Nat) (file : List Char) : Prop :=
  (file_entries file).length ≤ BLACKLIST_MAXSIZE →
    ∃ r bl, blacklist_load URL_SIZE (some file) emptyBlacklist = some (r, bl) ∧
      ∀ i, bl i = (file_entries file).getD i []

/-- A file of `n` lines, each the entry "a". -/
def entry_lines : Nat → List Char
  | 0 => []
  | n + 1 => 'a' :: '\n' :: entry_lines n

/-! ## Reading a trace

The words of the claims about the dispatcher: which backend denies, which calls
a cache miss is expected to make, what a trace contains. -/

/-- The state in which the child awaits the next message after the `recvfrom`
results in `pre`; `none` when it has exited. -/
def reached {W : Type} (o : Options) (x : Externals W) (sg0 : Str) (hash0 : Hash) (w : W)
    (pre : List (Int × Msg)) : Option (Locals × W) :=
  (child o x sg0 hash0 w pre).2

/-- The blacklist backend is configured and the process faults inside its call
on the URL. -/
def blacklist_faults (o : Options) (url : Str) : Bool :=
  match o.blacklist with
  | some optarg =>
    (blacklist_backend_at (blacklist_rows optarg o.blacklist_beyond) url o.debug).isNone
  | none => false

/-- The blacklist backend is configured and denies the URL: its call returns a
value other than 0. -/
def blacklist_denies (o : Options) (url : Str) : Bool :=
  match o.blacklist with
  | some optarg =>
    match blacklist_backend_at (blacklist_rows optarg o.blacklist_beyond) url o.debug with
    | some r => r != 0
    | none => false
  | none => false

/-- The proxy backend is configured and denies the URL when asked in world `w`. -/
def proxy_denies {W : Type} (o : Options) (x : Externals W) (url : Str) (w : W) : Bool :=
  match o.proxy_ip with
  | some ip => (x.proxy_backend ip o.proxy_port o.proxy_deny_pattern url w).1 != 0
  | none => false

/-- The world a proxy call made in world `w` leaves behind (`w` itself when the
proxy backend is not configured). -/
def world_after_proxy {W : Type} (o : Options) (x : Externals W) (url : Str) (w : W) : W :=
  match o.proxy_ip with
  | some ip => (x.proxy_backend ip o.proxy_port o.proxy_deny_pattern url w).2
  | none => w

/-- The squidguard backend is configured and denies the request when asked in
world `w` with the buffer holding `sg`. -/
def squidguard_denies {W : Type} (o : Options) (x : Externals W) (request : uf_request)
    (sg : Str) (w : W) : Bool :=
  o.squidguard != 0 &&
    (x.squidguard_backend request.srcip request.usr request.url sg w).1.1 != 0

/-- The backend calls expected on a cache miss that starts in world `w`: the
configured backends in the order blacklist, proxy, squidguard, each only while no
earlier one has denied; nothing is called after a call in which the process
faulted. -/
def expected_calls {W : Type} (o : Options) (x : Externals W) (request : uf_request)
    (w : W) : List Event :=
  (match o.blacklist with
    | some _ => [Event.blacklist_backend request.url]
    | none => []) ++
  (match o.proxy_ip with
    | some ip =>
      if blacklist_denies o request.url || blacklist_faults o request.url then []
      else [Event.proxy_backend ip o.proxy_port o.proxy_deny_pattern request.url]
    | none => []) ++
  (if o.squidguard ≠ 0 ∧ blacklist_denies o request.url = false ∧
      blacklist_faults o request.url = false ∧ proxy_denies o x request.url w = false
    then [Event.squidguard_backend request.srcip request.usr request.url] else [])

/-- Some configured backend, reached in the order blacklist, proxy, squidguard,
denies a request that misses the cache in world `w`. The proxy and squidguard are
reached only when the blacklist call has returned. -/
def chain_denies {W : Type} (o : Options) (x : Externals W) (request : uf_request)
    (sg : Str) (w : W) : Bool :=
  blacklist_denies o request.url ||
    (!blacklist_denies o request.url && !blacklist_faults o request.url &&
      proxy_denies o x request.url w) ||
    (!blacklist_denies o request.url && !blacklist_faults o request.url &&
      !proxy_denies o x request.url w &&
      squidguard_denies o x request sg (world_after_proxy o x request.url w))

/-- The buffer `sg_redirect` after the backend calls of a cache miss that starts
in world `w` with the buffer holding `sg`: what squidguard left there when it was
called, else `sg`. -/
def sg_after {W : Type} (o : Options) (x : Externals W) (request : uf_request)
    (sg : Str) (w : W) : Str :=
  if o.squidguard ≠ 0 ∧ blacklist_denies o request.url = false ∧
      blacklist_faults o request.url = false ∧ proxy_denies o x request.url w = false
  then (x.squidguard_backend request.srcip request.usr request.url sg
    (world_after_proxy o x request.url w)).1.2
  else sg

/-- What follows the backend calls of a cache miss that starts in world `w`: the
fault when the process was killed inside `blacklist_backend`, else the deny reply
when some backend reached has denied, else the accept reply and the cache
write. -/
def reply_events {W : Type} (o : Options) (x : Externals W) (msg : Msg) (request : uf_request)
    (l : Locals) (hash : Hash) (w : W) : List Event :=
  if blacklist_faults o request.url = true then [Event.sigsegv]
  else if chain_denies o x request l.sg_redirect w = true then
    [deny_reply o l msg (sg_after o x request l.sg_redirect w)]
  else [accept_reply o l msg, Event.add_cache l.cachedb hash]

/-- The request a message decodes to. -/
def request_of {W : Type} (o : Options) (x : Externals W) (msgsize : Int) (msg : Msg) :
    uf_request :=
  (decode o x msgsize msg).2

/-- Lines 275-276: the hash of the URL and the call of `in_cache` made for it in
world `w`; the result and the world it leaves. -/
def lookup {W : Type} (o : Options) (x : Externals W) (l : Locals) (url : Str) (w : W) :
    Int × W :=
  x.in_cache l.cachedb (x.get_hash url) o.cache_exp_secs w

/-- The event is the fault that kills the process. -/
def Event.isFault : Event → Bool
  | Event.sigsegv => true
  | _ => false

/-- The event is a call of a backend. -/
def Event.isBackend : Event → Bool
  | Event.blacklist_backend _ => true
  | Event.proxy_backend _ _ _ _ => true
  | Event.squidguard_backend _ _ _ => true
  | _ => false

/-- The event is a call of `blacklist_backend`. -/
def Event.isBlacklist : Event → Bool
  | Event.blacklist_backend _ => true
  | _ => false

/-- The event is a call of `proxy_backend`. -/
def Event.isProxy : Event → Bool
  | Event.proxy_backend _ _ _ _ => true
  | _ => false

/-- The event is a call of `squidguard_backend`. -/
def Event.isSquidguard : Event → Bool
  | Event.squidguard_backend _ _ _ => true
  | _ => false

/-- The event is a deny reply. -/
def Event.isDeny : Event → Bool
  | Event.n2h2_deny _ _ => true
  | Event.websns_deny _ _ => true
  | _ => false

/-- The event is an accept reply. -/
def Event.isAccept : Event → Bool
  | Event.n2h2_accept _ => true
  | Event.websns_accept _ => true
  | _ => false

/-- The event is a cache write. -/
def Event.isCacheWrite : Event → Bool
  | Event.add_cache _ _ => true
  | _ => false

/-- The event belongs to the dispatcher: hash computation, cache lookup, cache
write, a backend call or a verdict reply. -/
def Event.isDispatch : Event → Bool
  | Event.get_hash _ => true
  | Event.in_cache _ _ _ => true
  | Event.add_cache _ _ => true
  | Event.blacklist_backend _ => true
  | Event.proxy_backend _ _ _ _ => true
  | Event.squidguard_backend _ _ _ => true
  | Event.n2h2_deny _ _ => true
  | Event.websns_deny _ _ => true
  | Event.n2h2_accept _ => true
  | Event.websns_accept _ => true
  | _ => false

/-- The request type is a URL check. -/
def ReqType.isUrlCheck : ReqType → Bool
  | ReqType.N2H2_REQ => true
  | ReqType.WEBSNS_REQ => true
  | _ => false

/-! ## The cache store as the specification describes it -/

/-- Modelled from the spec: the Cache Store behind `in_cache` and `add_cache`
(their file is not among the sources). An entry is a pair of a fingerprint and the
time it was last allowed; `now` is the clock and `rest` the world of the other
external functions. -/
structure CacheWorld (V : Type) where
  now : Int
  store : List (Hash × Int)
  rest : V

/-- Modelled from the spec: `get(fingerprint, ttl)` of the Cache Store, absent
from the sources: a hit (1) exactly when a stored entry exists with
`now - storedAt ≤ ttl`, a miss (0) otherwise, never a mutation; without a store
handle the lookup fails (-1). -/
def spec_in_cache {V : Type} (db : Option DB) (hash : Hash) (ttl : Int) (w : CacheWorld V) :
    Int × CacheWorld V :=
  match db with
  | none => (-1, w)
  | some _ => (if ∃ e ∈ w.store, e.1 = hash ∧ w.now - e.2 ≤ ttl then 1 else 0, w)

/-- Modelled from the spec: `put(fingerprint)` of the Cache Store, absent from
the sources: the entry is recorded with the current time; without a store handle
nothing is recorded. -/
def spec_add_cache {V : Type} (db : Option DB) (hash : Hash) (w : CacheWorld V) :
    CacheWorld V :=
  match db with
  | none => w
  | some _ => { w with store := (hash, w.now) :: w.store }

/-- Modelled from the spec: external functions `x` with their cache functions
replaced by the Cache Store of the specification; the other functions act on the
`rest` of the world and leave clock and store alone. -/
def with_spec_cache {V : Type} (x : Externals V) : Externals (CacheWorld V) where
  n2h2_validate := x.n2h2_validate
  websns_convert := x.websns_convert
  websns_validate := x.websns_validate
  get_hash := x.get_hash
  open_cache := fun w => ((x.open_cache w.rest).1, { w with rest := (x.open_cache w.rest).2 })
  in_cache := spec_in_cache
  add_cache := spec_add_cache
  proxy_backend := fun ip port pattern url w =>
    ((x.proxy_backend ip port pattern url w.rest).1,
      { w with rest := (x.proxy_backend ip port pattern url w.rest).2 })
  squidguard_backend := fun srcip usr url sg w =>
    ((x.squidguard_backend srcip usr url sg w.rest).1,
      { w with rest := (x.squidguard_backend srcip usr url sg w.rest).2 })

/-! ## A concrete setting

Stub frontends and backends on which the theorems are instantiated: a message is
its own URL, the proxy denies URLs that contain "blocked", squidguard denies URLs
that contain "adult" and then supplies its own redirect. -/

/-- What the stub frontends make of a message. -/
def demo_request (req alive : ReqType) (msg : Msg) : uf_request :=
  { type :=
      if msg = "alive".toList then alive
      else if strstr msg "http".toList = some 0 then req
      else ReqType.UNKNOWN
    srcip := "10.0.0.1".toList
    dstip := "10.0.0.2".toList
    usr := "alice".toList
    url := msg }

/-- Stub external functions; the cache functions of this record are not used. -/
def demo : Externals Unit where
  n2h2_validate := fun msg _ => demo_request ReqType.N2H2_REQ ReqType.N2H2_ALIVE msg
  websns_convert := fun msg _ => msg
  websns_validate := fun msg _ => demo_request ReqType.WEBSNS_REQ ReqType.WEBSNS_ALIVE msg
  get_hash := fun url => (url.drop 7).take 9
  open_cache := fun w => (some 0, w)
  in_cache := fun _ _ _ w => (0, w)
  add_cache := fun _ _ w => w
  proxy_backend := fun _ _ _ url w =>
    (if (strstr url "blocked".toList).isSome then 1 else 0, w)
  squidguard_backend := fun _ _ url sg w =>
    if (strstr url "adult".toList).isSome then ((1, "http://sg.example/adult".toList), w)
    else ((0, sg), w)

/-- The options of `openufp -n -r http://block.example/ -f badsite
-p 10.0.0.9:3128:Denied -g`, with readable NUL bytes in memory after the argument
of `-f`. -/
def demo_options : Options :=
  { redirect_url := some "http://block.example/".toList
    cache_exp_secs := 3600
    debug := 0
    frontend := Frontend.N2H2
    proxy_ip := some "10.0.0.9".toList
    proxy_port := 3128
    proxy_deny_pattern := some "Denied".toList
    blacklist := some "badsite".toList
    blacklist_beyond := fun _ => some []
    squidguard := 1 }

/-- The child's variables when it enters the loop under `demo_options`, with
`garbage` in the uninitialised buffer `sg_redirect`. -/
def demo_locals : Locals :=
  { denied := 0, cached := 0, cachedb := some 0, hash := [], n2h2_request := false,
    websns_request := false, sg_redirect := "garbage".toList }

/-- A world at time 100 with an empty cache. -/
def demo_world : CacheWorld Unit := { now := 100, store := [], rest := () }

/-- The variables and the world of the demo child after the check of
"http://ok.example" has been accepted and cached. -/
def demo_locals_cached : Locals :=
  { denied := 0, cached := 0, cachedb := some 0, hash := "ok.exampl".toList,
    n2h2_request := true, websns_request := false, sg_redirect := "garbage".toList }

/-- The demo world once "http://ok.example" is in the cache. -/
def demo_world_cached : CacheWorld Unit :=
  { now := 100, store := [("ok.exampl".toList, 100)], rest := () }

/-- The child's variables when it enters the loop with caching disabled. -/
def demo_locals_nocache : Locals := { demo_locals with cachedb := none }

/-- The options of `openufp -n -r http://block.example/ -f good`: the blacklist
file is named `good`; the memory after the argument cannot be read. -/
def file_options : Options :=
  { redirect_url := some "http://block.example/".toList
    cache_exp_secs := 3600
    debug := 0
    frontend := Frontend.N2H2
    proxy_ip := none
    proxy_port := 0
    proxy_deny_pattern := none
    blacklist := some "good".toList
    blacklist_beyond := fun _ => none
    squidguard := 0 }

/-- The options of `openufp -n -r http://block.example/ -c 0
-f /etc/openufp/blacklist -p 10.0.0.9:3128:Denied`: caching is disabled and the
memory after the argument of `-f` cannot be read. -/
def fault_options : Options :=
  { redirect_url := some "http://block.example/".toList
    cache_exp_secs := 0
    debug := 0
    frontend := Frontend.N2H2
    proxy_ip := some "10.0.0.9".toList
    proxy_port := 3128
    proxy_deny_pattern := some "Denied".toList
    blacklist := some "/etc/openufp/blacklist".toList
    blacklist_beyond := fun _ => none
    squidguard := 0 }

/-! ## Theorems: blacklist_backend -/

theorem strstr_isSome_iff (h n : Str) : (strstr h n).isSome = true ↔ n <:+: h := by
  induction h with
  | nil =>
    by_cases hn : n = []
    · simp [strstr, hn]
    · simp [strstr, hn]
  | cons c h ih =>
    rw [List.infix_cons_iff]
    by_cases hp : n.isPrefixOf (c :: h) = true
    · simp only [strstr, hp, if_true, Option.isSome_some, true_iff]
      exact Or.inl (List.isPrefixOf_iff_prefix.mp hp)
    · have hp2 : ¬ n <+: c :: h := fun hh => hp (List.isPrefixOf_iff_prefix.mpr hh)
      simp only [strstr, hp, Option.isSome_map]
      simp [ih, hp2]

/-- The passes allowed to the loop of `blacklist_backend` are never used up: from
`index` on, any fuel of at least `BLACKLIST_MAXSIZE + 1 - index` gives the same
result as one pass more. -/
theorem blacklist_backend_loop_fuel (bl : Blacklist) (url : Str) :
    ∀ (fuel index : Nat), BLACKLIST_MAXSIZE + 1 ≤ fuel + index →
      blacklist_backend_loop bl url (fuel + 1) index = blacklist_backend_loop bl url fuel index := by
  intro fuel
  induction fuel with
  | zero =>
    intro index h
    have hc : ¬ (index < BLACKLIST_MAXSIZE ∧ strlen (bl index) > 0) := by omega
    simp only [blacklist_backend_loop, if_neg hc]
  | succ fuel ih =>
    intro index h
    rw [blacklist_backend_loop, ih (index + 1) (by omega)]
    conv_rhs => rw [blacklist_backend_loop]

theorem blacklist_backend_loop_ofEntries (entries : List Str) (url : Str)
    (hne : ∀ e ∈ entries, e ≠ []) (hlen : entries.length ≤ BLACKLIST_MAXSIZE) :
    ∀ (fuel index : Nat), BLACKLIST_MAXSIZE + 1 ≤ fuel + index →
      blacklist_backend_loop (ofEntries entries) url fuel index =
        if ∃ e ∈ entries.drop index, e <:+: url then 1 else 0 := by
  intro fuel
  induction fuel with
  | zero =>
    intro index hfuel
    have hdrop : entries.drop index = [] := List.drop_eq_nil_of_le (by omega)
    simp [blacklist_backend_loop, hdrop]
  | succ fuel ih =>
    intro index hfuel
    by_cases hi : index < entries.length
    · have hrow : ofEntries entries index = entries[index] := by
        simp [ofEntries, List.getD_eq_getElem, hi]
      have hpos : strlen (ofEntries entries index) > 0 := by
        rw [hrow]
        exact List.length_pos.mpr (hne _ (List.getElem_mem _))
      have hcond : index < BLACKLIST_MAXSIZE ∧ strlen (ofEntries entries index) > 0 :=
        ⟨by omega, hpos⟩
      rw [blacklist_backend_loop, if_pos hcond, List.drop_eq_getElem_cons hi, hrow]
      by_cases hs : (strstr url entries[index]).isSome = true
      · have hin := (strstr_isSome_iff url _).mp hs
        have hex : ∃ e ∈ entries[index] :: List.drop (index + 1) entries, e <:+: url :=
          ⟨_, List.mem_cons_self _ _, hin⟩
        rw [if_pos hs, if_pos hex]
      · have hin : ¬ entries[index] <:+: url := fun hh => hs ((strstr_isSome_iff url _).mpr hh)
        have hiff : (∃ e ∈ entries[index] :: List.drop (index + 1) entries, e <:+: url) ↔
            ∃ e ∈ List.drop (index + 1) entries, e <:+: url := by
          constructor
          · rintro ⟨e, he, h⟩
            rcases List.mem_cons.mp he with rfl | he
            · exact absurd h hin
            · exact ⟨e, he, h⟩
          · rintro ⟨e, he, h⟩
            exact ⟨e, List.mem_cons_of_mem _ he, h⟩
        rw [if_neg hs, ih (index + 1) (by omega), if_congr hiff rfl rfl]
    · have hrow : ofEntries entries index = [] :=
        List.getD_eq_default _ _ (Nat.le_of_not_lt hi)
      have hdrop : entries.drop index = [] := List.drop_eq_nil_of_le (by omega)
      simp [blacklist_backend_loop, hrow, strlen, hdrop]

/-- C2: on a blacklist that holds non-empty entries in its first rows and is empty
after them, `blacklist_backend` returns 1 exactly when some entry occurs in the URL
as a contiguous run of the same characters, and 0 otherwise. It returns 0 on the
empty blacklist, 1 for the entry "badsite.com" on "http://badsite.com/x", and 0 for
an entry that matches the URL only up to letter case. -/
theorem blacklist_backend_substring (entries : List Str) (url : Str) (debug : Int)
    (hne : ∀ e ∈ entries, e ≠ []) (hlen : entries.length ≤ BLACKLIST_MAXSIZE) :
    (blacklist_backend (ofEntries entries) url debug = 1 ↔ ∃ e ∈ entries, e <:+: url) ∧
    (blacklist_backend (ofEntries entries) url debug = 0 ↔ ¬ ∃ e ∈ entries, e <:+: url) ∧
    blacklist_backend (ofEntries []) url debug = 0 ∧
    blacklist_backend (ofEntries ["badsite.com".toList]) "http://badsite.com/x".toList debug = 1 ∧
    blacklist_backend (ofEntries ["BadSite.com".toList]) "http://badsite.com/x".toList debug = 0 := by
  have key := blacklist_backend_loop_ofEntries entries url hne hlen (BLACKLIST_MAXSIZE + 1) 0
    (by omega)
  rw [List.drop_zero] at key
  refine ⟨?_, ?_, ?_, ?_, ?_⟩
  · unfold blacklist_backend
    rw [key]
    by_cases h : ∃ e ∈ entries, e <:+: url
    · simp [h]
    · simp [h]
  · unfold blacklist_backend
    rw [key]
    by_cases h : ∃ e ∈ entries, e <:+: url
    · simp [h]
    · simp [h]
  · simp [blacklist_backend, blacklist_backend_loop, ofEntries, strlen]
  · show blacklist_backend_loop (ofEntries ["badsite.com".toList]) "http://badsite.com/x".toList
      (BLACKLIST_MAXSIZE + 1) 0 = 1
    decide
  · show blacklist_backend_loop (ofEntries ["BadSite.com".toList]) "http://badsite.com/x".toList
      (BLACKLIST_MAXSIZE + 1) 0 = 0
    decide

/-- C2 at the entries "badsite.com", "other.com" and the URL "http://www.other.com/". -/
theorem blacklist_backend_substring_witness :
    (blacklist_backend (ofEntries ["badsite.com".toList, "other.com".toList])
        "http://www.other.com/".toList 0 = 1 ↔
      ∃ e ∈ ["badsite.com".toList, "other.com".toList], e <:+: "http://www.other.com/".toList) ∧
    blacklist_backend (ofEntries ["badsite.com".toList, "other.com".toList])
        "http://www.other.com/".toList 0 = 1 :=
  ⟨(blacklist_backend_substring ["badsite.com".toList, "other.com".toList]
      "http://www.other.com/".toList 0 (by decide) (by decide)).1, by decide⟩

/-! ## Theorems: blacklist_load -/

theorem file_lines_cons (c : Char) (cs : List Char) :
    file_lines (c :: cs) = (first_line (c :: cs)).1 :: file_lines (first_line (c :: cs)).2 := by
  induction cs generalizing c with
  | nil =>
    by_cases hc : c = '\n'
    · simp [file_lines, first_line, hc]
    · simp [file_lines, first_line, hc]
  | cons d ds ih =>
    by_cases hc : c = '\n'
    · simp [file_lines, first_line, hc]
    · have h := ih d
      rw [file_lines, if_neg hc, h]
      simp [first_line, hc]

theorem first_line_rest_length (fd : List Char) : (first_line fd).2.length ≤ fd.length := by
  induction fd with
  | nil => simp [first_line]
  | cons c cs ih =>
    by_cases hc : c = '\n'
    · simp [first_line, hc]
    · simp only [first_line, hc, if_false, List.length_cons]
      omega

theorem first_line_rest_length_lt (c : Char) (cs : List Char) :
    (first_line (c :: cs)).2.length < (c :: cs).length := by
  by_cases hc : c = '\n'
  · simp [first_line, hc]
  · have h := first_line_rest_length cs
    simp only [first_line, hc, if_false, List.length_cons]
    omega

theorem first_line_mem (fd : List Char) :
    (∀ a ∈ (first_line fd).1, a ∈ fd ∧ a ≠ '\n') ∧ ∀ a ∈ (first_line fd).2, a ∈ fd := by
  induction fd with
  | nil => simp [first_line]
  | cons c cs ih =>
    by_cases hc : c = '\n'
    · simp only [first_line, hc, if_true]
      exact ⟨by simp, fun a ha => List.mem_cons_of_mem _ ha⟩
    · simp only [first_line, hc, if_false]
      refine ⟨fun a ha => ?_, fun a ha => List.mem_cons_of_mem _ (ih.2 a ha)⟩
      rcases List.mem_cons.mp ha with rfl | ha
      · exact ⟨List.mem_cons_self _ _, hc⟩
      · exact ⟨List.mem_cons_of_mem _ (ih.1 a ha).1, (ih.1 a ha).2⟩

theorem fgets_take_first_line (k : Nat) (fd : List Char) (hk : (first_line fd).1.length < k) :
    ∃ nl, (nl = [] ∨ nl = ['\n']) ∧
      fgets_take k fd = ((first_line fd).1 ++ nl, (first_line fd).2) := by
  induction fd generalizing k with
  | nil =>
    cases k with
    | zero => exact absurd hk (by simp)
    | succ k => exact ⟨[], Or.inl rfl, by simp [fgets_take, first_line]⟩
  | cons c cs ih =>
    cases k with
    | zero => exact absurd hk (by simp)
    | succ k =>
      by_cases hc : c = '\n'
      · exact ⟨['\n'], Or.inr rfl, by simp [fgets_take, first_line, hc]⟩
      · have hk2 : (first_line cs).1.length < k := by
          simp only [first_line, hc, if_false, List.length_cons] at hk
          omega
        obtain ⟨nl, hnl, h⟩ := ih k hk2
        exact ⟨nl, hnl, by simp [fgets_take, first_line, hc, h]⟩

theorem cstr_eq_self (line : List Char) (h : ∀ a ∈ line, a ≠ '\x00') : cstr line = line := by
  unfold cstr
  rw [List.takeWhile_eq_self_iff]
  intro a ha
  simpa using h a ha

theorem takeWhile_append_newline (p : Char → Bool) (hp : p '\n' = false) (t : List Char) :
    (t ++ ['\n']).takeWhile p = t.takeWhile p := by
  induction t with
  | nil => simp [List.takeWhile, hp]
  | cons c t ih =>
    by_cases hc : p c = true
    · simp [List.takeWhile_cons, hc, ih]
    · simp [List.takeWhile_cons, hc]

theorem token_append_newline (l : List Char) :
    ((l ++ ['\n']).dropWhile isspace).takeWhile (fun c => !isspace c) =
      (l.dropWhile isspace).takeWhile (fun c => !isspace c) := by
  induction l with
  | nil => simp [List.dropWhile, List.takeWhile, isspace]
  | cons c t ih =>
    by_cases hc : isspace c = true
    · simpa [List.dropWhile_cons, hc] using ih
    · have h1 : ((c :: t) ++ ['\n']).dropWhile isspace = c :: (t ++ ['\n']) := by
        simp [List.dropWhile_cons, hc]
      have h2 : (c :: t).dropWhile isspace = c :: t := by
        simp [List.dropWhile_cons, hc]
      rw [h1, h2, ← List.cons_append]
      exact takeWhile_append_newline _ (by simp [isspace]) (c :: t)

theorem sscanf_s_line (l nl : List Char) (hnl : nl = [] ∨ nl = ['\n'])
    (hnul : ∀ a ∈ l, a ≠ '\x00') : sscanf_s (l ++ nl) = first_token l := by
  have hnul2 : ∀ a ∈ l ++ nl, a ≠ '\x00' := by
    intro a ha
    rcases List.mem_append.mp ha with ha | ha
    · exact hnul a ha
    · rcases hnl with rfl | rfl
      · simp at ha
      · have : a = '\n' := by simpa using ha
        rw [this]
        decide
  unfold sscanf_s first_token
  rw [cstr_eq_self _ hnul2]
  rcases hnl with rfl | rfl
  · simp
  · rw [token_append_newline]

theorem scan_line_eq (l nl : List Char) (hnl : nl = [] ∨ nl = ['\n'])
    (hnul : ∀ a ∈ l, a ≠ '\x00') (hline : ∀ a ∈ l, a ≠ '\n') :
    scan_line (l ++ nl) = entry_of_line l := by
  cases l with
  | nil =>
    rcases hnl with rfl | rfl
    · simp [scan_line, entry_of_line, sscanf_s, first_token, cstr]
    · simp [scan_line, entry_of_line, first_token]
  | cons c t =>
    have hc : c ≠ '\n' := hline c (List.mem_cons_self _ _)
    unfold scan_line entry_of_line
    by_cases hh : c = '#'
    · simp [hh]
    · have hcond : ¬ (((c :: t) ++ nl).head? = some '#' ∨ ((c :: t) ++ nl).head? = some '\n') := by
        simp [hh, hc]
      have hcond2 : ¬ ((c :: t).head? = some '#') := by simp [hh]
      rw [if_neg hcond, if_neg hcond2]
      exact sscanf_s_line _ _ hnl hnul

theorem blacklist_load_loop_succ (U fuel : Nat) (fd : List Char) (index : Nat) (bl : Blacklist) :
    blacklist_load_loop U (fuel + 1) fd index bl =
      match fgets U fd with
      | none => some (0, bl)
      | some (line, rest) =>
        match scan_line line with
        | none => blacklist_load_loop U fuel rest index bl
        | some tok =>
          if index + 1 = BLACKLIST_MAXSIZE then some (-1, setRow bl index tok)
          else blacklist_load_loop U fuel rest (index + 1) (setRow bl index tok) := by
  rw [blacklist_load_loop]
  cases hf : fgets U fd with
  | none => rfl
  | some r =>
    obtain ⟨line, rest⟩ := r
    simp only [scan_line]
    by_cases hc : line.head? = some '#' ∨ line.head? = some '\n'
    · simp only [if_pos hc]
    · simp only [if_neg hc]

theorem blacklist_load_loop_entries (U : Nat) :
    ∀ (fuel : Nat) (fd : List Char) (index : Nat) (bl : Blacklist),
      fd.length < fuel → ShortLines U fd → (∀ a ∈ fd, a ≠ '\x00') →
      blacklist_load_loop U fuel fd index bl = some (store_entries bl index (file_entries fd)) := by
  intro fuel
  induction fuel with
  | zero => intro fd index bl h; exact absurd h (by simp)
  | succ fuel ih =>
    intro fd index bl hfuel hshort hnul
    rw [blacklist_load_loop_succ]
    cases fd with
    | nil => simp [fgets, file_entries, file_lines, store_entries]
    | cons c cs =>
      have hlines := file_lines_cons c cs
      have hl : (first_line (c :: cs)).1.length + 1 < U :=
        hshort _ (by rw [hlines]; exact List.mem_cons_self _ _)
      obtain ⟨nl, hnl, hget⟩ := fgets_take_first_line (U - 1) (c :: cs) (by omega)
      have hmem := first_line_mem (c :: cs)
      have hrest_len : (first_line (c :: cs)).2.length < fuel := by
        have := first_line_rest_length_lt c cs
        omega
      have hrest_short : ShortLines U (first_line (c :: cs)).2 := by
        intro l hl2
        exact hshort l (by rw [hlines]; exact List.mem_cons_of_mem _ hl2)
      have hrest_nul : ∀ a ∈ (first_line (c :: cs)).2, a ≠ '\x00' :=
        fun a ha => hnul a (hmem.2 a ha)
      have hscan : scan_line ((first_line (c :: cs)).1 ++ nl) =
          entry_of_line (first_line (c :: cs)).1 :=
        scan_line_eq _ _ hnl (fun a ha => hnul a (hmem.1 a ha).1) (fun a ha => (hmem.1 a ha).2)
      have hentries : file_entries (c :: cs) =
          match entry_of_line (first_line (c :: cs)).1 with
          | none => file_entries (first_line (c :: cs)).2
          | some tok => tok :: file_entries (first_line (c :: cs)).2 := by
        unfold file_entries
        rw [hlines, List.filterMap_cons]
        cases entry_of_line (first_line (c :: cs)).1 <;> rfl
      simp only [fgets, hget, hscan]
      rw [hentries]
      cases hent : entry_of_line (first_line (c :: cs)).1 with
      | none => exact ih _ index bl hrest_len hrest_short hrest_nul
      | some tok =>
        simp only [store_entries]
        by_cases hfull : index + 1 = BLACKLIST_MAXSIZE
        · simp only [if_pos hfull]
        · simp only [if_neg hfull]
          exact ih _ (index + 1) _ hrest_len hrest_short hrest_nul

theorem store_entries_ret (es : List Str) :
    ∀ (bl : Blacklist) (index : Nat), index < BLACKLIST_MAXSIZE →
      (store_entries bl index es).1 = if index + es.length < BLACKLIST_MAXSIZE then 0 else -1 := by
  induction es with
  | nil => intro bl index h; simp [store_entries, h]
  | cons e es ih =>
    intro bl index h
    by_cases hfull : index + 1 = BLACKLIST_MAXSIZE
    · have hlt : ¬ index + (e :: es).length < BLACKLIST_MAXSIZE := by
        simp only [List.length_cons]
        omega
      simp only [store_entries, if_pos hfull, if_neg hlt]
    · simp only [store_entries, if_neg hfull]
      rw [ih _ (index + 1) (by omega)]
      have hiff : index + 1 + es.length < BLACKLIST_MAXSIZE ↔
          index + (e :: es).length < BLACKLIST_MAXSIZE := by
        simp only [List.length_cons]
        omega
      rw [if_congr hiff rfl rfl]

theorem store_entries_row (es : List Str) :
    ∀ (bl : Blacklist) (index : Nat), index < BLACKLIST_MAXSIZE → ∀ j,
      (store_entries bl index es).2 j =
        if index ≤ j ∧ j < BLACKLIST_MAXSIZE ∧ j < index + es.length
        then es.getD (j - index) [] else bl j := by
  induction es with
  | nil =>
    intro bl index _ j
    have hc : ¬ (index ≤ j ∧ j < BLACKLIST_MAXSIZE ∧ j < index + ([] : List Str).length) := by
      simp only [List.length_nil]
      omega
    simp only [store_entries, if_neg hc]
  | cons e es ih =>
    intro bl index h j
    by_cases hfull : index + 1 = BLACKLIST_MAXSIZE
    · simp only [store_entries, if_pos hfull, setRow]
      by_cases hj : j = index
      · have hc : index ≤ j ∧ j < BLACKLIST_MAXSIZE ∧ j < index + (e :: es).length := by
          simp only [List.length_cons]
          omega
        rw [if_pos hj, if_pos hc, hj]
        simp
      · have hc : ¬ (index ≤ j ∧ j < BLACKLIST_MAXSIZE ∧ j < index + (e :: es).length) := by
          omega
        rw [if_neg hj, if_neg hc]
    · simp only [store_entries, if_neg hfull]
      rw [ih _ (index + 1) (by omega) j]
      by_cases hj : j = index
      · have hc1 : ¬ (index + 1 ≤ j ∧ j < BLACKLIST_MAXSIZE ∧ j < index + 1 + es.length) := by
          omega
        have hc2 : index ≤ j ∧ j < BLACKLIST_MAXSIZE ∧ j < index + (e :: es).length := by
          simp only [List.length_cons]
          omega
        rw [if_neg hc1, if_pos hc2, hj]
        simp [setRow]
      · by_cases hc1 : index + 1 ≤ j ∧ j < BLACKLIST_MAXSIZE ∧ j < index + 1 + es.length
        · have hc2 : index ≤ j ∧ j < BLACKLIST_MAXSIZE ∧ j < index + (e :: es).length := by
            simp only [List.length_cons]
            omega
          have hsub : j - index = (j - (index + 1)) + 1 := by omega
          rw [if_pos hc1, if_pos hc2, hsub, List.getD_cons_succ]
        · have hc2 : ¬ (index ≤ j ∧ j < BLACKLIST_MAXSIZE ∧ j < index + (e :: es).length) := by
            simp only [List.length_cons]
            omega
          rw [if_neg hc1, if_neg hc2]
          simp [setRow, hj]

theorem blacklist_load_eq_store (U : Nat) (file : List Char) (hshort : ShortLines U file)
    (hnul : ∀ a ∈ file, a ≠ '\x00') (bl : Blacklist) :
    blacklist_load U (some file) bl = some (store_entries bl 0 (file_entries file)) :=
  blacklist_load_loop_entries U (file.length + 1) file 0 bl (by omega) hshort hnul

theorem loadsFileEntries_of_short (U : Nat) (file : List Char) (hshort : ShortLines U file)
    (hnul : ∀ a ∈ file, a ≠ '\x00') : LoadsFileEntries U file := by
  intro hN
  refine ⟨_, _, blacklist_load_eq_store U file hshort hnul emptyBlacklist, fun i => ?_⟩
  rw [store_entries_row _ _ 0 (by decide) i]
  by_cases hi : i < (file_entries file).length
  · have hc : 0 ≤ i ∧ i < BLACKLIST_MAXSIZE ∧ i < 0 + (file_entries file).length := by omega
    rw [if_pos hc, Nat.sub_zero]
  · have hc : ¬ (0 ≤ i ∧ i < BLACKLIST_MAXSIZE ∧ i < 0 + (file_entries file).length) := by omega
    rw [if_neg hc, List.getD_eq_default _ _ (by omega)]
    rfl

/-- C6 (amended): for every blacklist file without NUL characters in which every
line, newline included, fits in what `fgets` stores in the `URL_SIZE`-byte line
buffer, and whose number N of entry lines is at most `BLACKLIST_MAXSIZE`,
`blacklist_load` applied to an all-empty array stores exactly the N entries at rows
0..N-1 in file order, each the first white-space-delimited token of its line, and
leaves every later row empty. With a buffer of at least 13 bytes the file
"badsite.com\n#comment\n\nother.com\n" loads as ["badsite.com", "other.com"]. -/
theorem blacklist_load_file_order (URL_SIZE : Nat) (file : List Char)
    (hshort : ShortLines URL_SIZE file) (hnul : ∀ a ∈ file, a ≠ '\x00') :
    LoadsFileEntries URL_SIZE file ∧
    (13 ≤ URL_SIZE →
      ∃ r bl, blacklist_load URL_SIZE (some "badsite.com\n#comment\n\nother.com\n".toList)
          emptyBlacklist = some (r, bl) ∧
        ∀ i, bl i = ["badsite.com".toList, "other.com".toList].getD i []) := by
  refine ⟨loadsFileEntries_of_short URL_SIZE file hshort hnul, fun hU => ?_⟩
  have hentries : file_entries "badsite.com\n#comment\n\nother.com\n".toList =
      ["badsite.com".toList, "other.com".toList] := by decide
  have hlen : ∀ l ∈ file_lines "badsite.com\n#comment\n\nother.com\n".toList, l.length ≤ 11 := by
    decide
  have hs : ShortLines URL_SIZE "badsite.com\n#comment\n\nother.com\n".toList := by
    intro l hl
    have := hlen l hl
    omega
  have h := loadsFileEntries_of_short URL_SIZE _ hs (by decide)
  unfold LoadsFileEntries at h
  rw [hentries] at h
  exact h (by decide)

/-- C6 (amended) at a five-line file with a comment, a blank line and an indented
entry followed by a second token, read through a 64-byte line buffer. -/
theorem blacklist_load_file_order_witness :
    LoadsFileEntries 64 "badsite.com\n# comment\n\n  other.com  x\nthird.org".toList ∧
    file_entries "badsite.com\n# comment\n\n  other.com  x\nthird.org".toList =
      ["badsite.com".toList, "other.com".toList, "third.org".toList] :=
  ⟨(blacklist_load_file_order 64 "badsite.com\n# comment\n\n  other.com  x\nthird.org".toList
      (by unfold ShortLines; decide) (by decide)).1, by decide⟩

theorem fgets_take_replicate (n m : Nat) :
    fgets_take n (List.replicate (n + m) 'a') = (List.replicate n 'a', List.replicate m 'a') := by
  induction n with
  | zero => simp [fgets_take]
  | succ n ih =>
    have h : n + 1 + m = (n + m) + 1 := by omega
    rw [h, List.replicate_succ, fgets_take, if_neg (by decide), ih, List.replicate_succ]

theorem first_token_replicate (n : Nat) :
    first_token (List.replicate (n + 1) 'a') = some (List.replicate (n + 1) 'a') := by
  have hd : (List.replicate (n + 1) 'a').dropWhile isspace = List.replicate (n + 1) 'a' := by
    rw [List.dropWhile_replicate]
    simp [isspace]
  have ht : (List.replicate (n + 1) 'a').takeWhile (fun c => !isspace c) =
      List.replicate (n + 1) 'a' := by
    rw [List.takeWhile_replicate]
    simp [isspace]
  unfold first_token
  simp only [hd, ht]
  simp [List.replicate_succ]

theorem scan_line_replicate (n : Nat) :
    scan_line (List.replicate (n + 1) 'a') = some (List.replicate (n + 1) 'a') := by
  have h := scan_line_eq (List.replicate (n + 1) 'a') [] (Or.inl rfl)
    (fun a ha => by rw [List.eq_of_mem_replicate ha]; decide)
    (fun a ha => by rw [List.eq_of_mem_replicate ha]; decide)
  rw [List.append_nil] at h
  rw [h]
  unfold entry_of_line
  rw [if_neg (by simp [List.replicate_succ])]
  exact first_token_replicate n

theorem file_entries_replicate (n : Nat) :
    file_entries (List.replicate (n + 1) 'a') = [List.replicate (n + 1) 'a'] := by
  have hl : file_lines (List.replicate (n + 1) 'a') = [List.replicate (n + 1) 'a'] := by
    induction n with
    | zero => decide
    | succ n ih =>
      rw [List.replicate_succ, file_lines, if_neg (by decide), ih]
  unfold file_entries
  rw [hl]
  have he : entry_of_line (List.replicate (n + 1) 'a') = some (List.replicate (n + 1) 'a') := by
    unfold entry_of_line
    rw [if_neg (by simp [List.replicate_succ])]
    exact first_token_replicate n
  simp [List.filterMap_cons, he]

theorem blacklist_load_replicate (k : Nat) :
    ∃ bl, blacklist_load (k + 2) (some (List.replicate (k + 2) 'a')) emptyBlacklist = some (0, bl) ∧
      bl 1 = ['a'] := by
  have h1 : fgets (k + 2) (List.replicate (k + 2) 'a') =
      some (List.replicate (k + 1) 'a', ['a']) := by
    have := fgets_take_replicate (k + 1) 1
    simp only [List.replicate_succ, fgets] at this ⊢
    simpa using this
  have h2 : fgets (k + 2) ['a'] = some (['a'], []) := by
    cases k <;> simp [fgets, fgets_take]
  have hmax : ¬ (0 + 1 = BLACKLIST_MAXSIZE) := by decide
  have hmax2 : ¬ (0 + 1 + 1 = BLACKLIST_MAXSIZE) := by decide
  refine ⟨setRow (setRow emptyBlacklist 0 (List.replicate (k + 1) 'a')) 1 ['a'], ?_, by
    simp [setRow]⟩
  unfold blacklist_load
  simp only [List.length_replicate]
  rw [blacklist_load_loop_succ, h1]
  simp only [scan_line_replicate k, if_neg hmax]
  rw [blacklist_load_loop_succ, h2]
  have hs : scan_line ['a'] = some ['a'] := scan_line_replicate 0
  simp only [hs, if_neg hmax2]
  rw [blacklist_load_loop_succ]
  simp [fgets]

/-- C6 (counterexample): a line longer than the line buffer is cut by `fgets` and
loaded as several entries, and a token is cut at a NUL character. With an 8-byte
buffer the one-entry file "aaaaaaaaaa\n" loads as the two entries "aaaaaaa" and
"aaa"; for every buffer size of at least 2 a line of that many letters leaves a
second entry in row 1; the one-entry file "ab\x00cd\n" loads as "ab". -/
theorem blacklist_load_long_line_counterexample :
    ((blacklist_load 8 (some "aaaaaaaaaa\n".toList) emptyBlacklist).map
        (fun r => (r.1, r.2 0, r.2 1, r.2 2)) =
        some (0, "aaaaaaa".toList, "aaa".toList, []) ∧
      file_entries "aaaaaaaaaa\n".toList = ["aaaaaaaaaa".toList] ∧
      ¬ LoadsFileEntries 8 "aaaaaaaaaa\n".toList) ∧
    (∀ U, 2 ≤ U → ¬ LoadsFileEntries U (List.replicate U 'a')) ∧
    ((blacklist_load 64 (some "ab\x00cd\n".toList) emptyBlacklist).map
        (fun r => (r.1, r.2 0, r.2 1)) = some (0, "ab".toList, []) ∧
      file_entries "ab\x00cd\n".toList = ["ab\x00cd".toList] ∧
      ¬ LoadsFileEntries 64 "ab\x00cd\n".toList) := by
  have e1 : (blacklist_load 8 (some "aaaaaaaaaa\n".toList) emptyBlacklist).map
      (fun r => (r.1, r.2 0, r.2 1, r.2 2)) =
      some (0, "aaaaaaa".toList, "aaa".toList, []) := by decide
  have f1 : file_entries "aaaaaaaaaa\n".toList = ["aaaaaaaaaa".toList] := by decide
  have e3 : (blacklist_load 64 (some "ab\x00cd\n".toList) emptyBlacklist).map
      (fun r => (r.1, r.2 0, r.2 1)) = some (0, "ab".toList, []) := by decide
  have f3 : file_entries "ab\x00cd\n".toList = ["ab\x00cd".toList] := by decide
  refine ⟨⟨e1, f1, ?_⟩, ?_, ⟨e3, f3, ?_⟩⟩
  · intro h
    obtain ⟨r, bl, hload, hrows⟩ := h (by rw [f1]; decide)
    rw [hload] at e1
    have h1 := hrows 1
    rw [f1] at h1
    simp only [Option.map_some', Option.some.injEq, Prod.mk.injEq] at e1
    rw [e1.2.2.1] at h1
    exact absurd h1 (by decide)
  · intro U hU h
    obtain ⟨k, rfl⟩ : ∃ k, U = k + 2 := ⟨U - 2, by omega⟩
    obtain ⟨bl0, hload0, hrow0⟩ := blacklist_load_replicate k
    have hf := file_entries_replicate (k + 1)
    obtain ⟨r, bl, hload, hrows⟩ := h (by rw [hf]; simp [BLACKLIST_MAXSIZE])
    rw [hload0] at hload
    have hbl : bl0 = bl := by
      simp only [Option.some.injEq, Prod.mk.injEq] at hload
      exact hload.2
    have h1 := hrows 1
    rw [hf, ← hbl, hrow0] at h1
    simp at h1
  · intro h
    obtain ⟨r, bl, hload, hrows⟩ := h (by rw [f3]; decide)
    rw [hload] at e3
    have h0 := hrows 0
    rw [f3] at h0
    simp only [Option.map_some', Option.some.injEq, Prod.mk.injEq] at e3
    rw [e3.2.1] at h0
    exact absurd h0 (by decide)

/-! ## Theorems: the dispatcher -/

theorem blacklist_backend_loop_at_readable (bl : Blacklist) (url : Str) :
    ∀ (fuel index : Nat),
      blacklist_backend_loop_at (fun i => some (bl i)) url fuel index =
        some (blacklist_backend_loop bl url fuel index) := by
  intro fuel
  induction fuel with
  | zero => intro index; rfl
  | succ fuel ih =>
    intro index
    rw [blacklist_backend_loop_at, blacklist_backend_loop]
    by_cases hi : index < BLACKLIST_MAXSIZE
    · by_cases hl : strlen (bl index) > 0
      · by_cases hs : (strstr url (bl index)).isSome = true
        · simp [hi, hl, hs]
        · simp [hi, hl, hs, ih]
      · simp [hi, hl]
    · simp [hi]

/-- On rows that are all readable the call through a pointer is the call of
`blacklist_backend` on the array. -/
theorem blacklist_backend_at_readable (bl : Blacklist) (url : Str) (debug : Int) :
    blacklist_backend_at (fun i => some (bl i)) url debug =
      some (blacklist_backend bl url debug) :=
  blacklist_backend_loop_at_readable bl url (BLACKLIST_MAXSIZE + 1) 0

theorem chain_miss {W : Type} (o : Options) (x : Externals W) (request : uf_request)
    (sg : Str) (w : W) :
    (blacklist_block o request 0
        { denied := 0, sg_redirect := sg, world := w, trace := [], killed := false }).killed =
      blacklist_faults o request.url ∧
    (blacklist_faults o request.url = true →
      (blacklist_block o request 0
        { denied := 0, sg_redirect := sg, world := w, trace := [], killed := false }).trace =
        expected_calls o x request w) ∧
    (blacklist_faults o request.url = false →
      (squidguard_block o x request 0 (proxy_block o x request 0 (blacklist_block o request 0
        { denied := 0, sg_redirect := sg, world := w, trace := [], killed := false }))).trace =
        expected_calls o x request w ∧
      ((squidguard_block o x request 0 (proxy_block o x request 0 (blacklist_block o request 0
        { denied := 0, sg_redirect := sg, world := w, trace := [],
          killed := false }))).denied ≠ 0 ↔
        chain_denies o x request sg w = true) ∧
      (squidguard_block o x request 0 (proxy_block o x request 0 (blacklist_block o request 0
        { denied := 0, sg_redirect := sg, world := w, trace := [],
          killed := false }))).sg_redirect =
        sg_after o x request sg w) := by
  cases hb : o.blacklist with
  | none =>
    cases hp : o.proxy_ip with
    | none =>
      by_cases hs : o.squidguard = 0
      · simp [squidguard_block, proxy_block, blacklist_block, expected_calls, chain_denies,
          blacklist_denies, blacklist_faults, proxy_denies, squidguard_denies, world_after_proxy,
          sg_after, hb, hp, hs]
      · simp [squidguard_block, proxy_block, blacklist_block, expected_calls, chain_denies,
          blacklist_denies, blacklist_faults, proxy_denies, squidguard_denies, world_after_proxy,
          sg_after, hb, hp, hs]
    | some ip =>
      by_cases hpd : (x.proxy_backend ip o.proxy_port o.proxy_deny_pattern request.url w).1 = 0
      · by_cases hs : o.squidguard = 0
        · simp [squidguard_block, proxy_block, blacklist_block, expected_calls, chain_denies,
            blacklist_denies, blacklist_faults, proxy_denies, squidguard_denies, world_after_proxy,
            sg_after, hb, hp, hpd, hs]
        · simp [squidguard_block, proxy_block, blacklist_block, expected_calls, chain_denies,
            blacklist_denies, blacklist_faults, proxy_denies, squidguard_denies, world_after_proxy,
            sg_after, hb, hp, hpd, hs]
      · by_cases hs : o.squidguard = 0
        · simp [squidguard_block, proxy_block, blacklist_block, expected_calls, chain_denies,
            blacklist_denies, blacklist_faults, proxy_denies, squidguard_denies, world_after_proxy,
            sg_after, hb, hp, hpd, hs]
        · simp [squidguard_block, proxy_block, blacklist_block, expected_calls, chain_denies,
            blacklist_denies, blacklist_faults, proxy_denies, squidguard_denies, world_after_proxy,
            sg_after, hb, hp, hpd, hs]
  | some optarg =>
    cases hbr : blacklist_backend_at (blacklist_rows optarg o.blacklist_beyond) request.url
        o.debug with
    | none =>
      cases hp : o.proxy_ip with
      | none =>
        by_cases hs : o.squidguard = 0
        · simp [squidguard_block, proxy_block, blacklist_block, expected_calls, chain_denies,
            blacklist_denies, blacklist_faults, proxy_denies, squidguard_denies, world_after_proxy,
            sg_after, hb, hbr, hp, hs]
        · simp [squidguard_block, proxy_block, blacklist_block, expected_calls, chain_denies,
            blacklist_denies, blacklist_faults, proxy_denies, squidguard_denies, world_after_proxy,
            sg_after, hb, hbr, hp, hs]
      | some ip =>
        by_cases hs : o.squidguard = 0
        · simp [squidguard_block, proxy_block, blacklist_block, expected_calls, chain_denies,
            blacklist_denies, blacklist_faults, proxy_denies, squidguard_denies, world_after_proxy,
            sg_after, hb, hbr, hp, hs]
        · simp [squidguard_block, proxy_block, blacklist_block, expected_calls, chain_denies,
            blacklist_denies, blacklist_faults, proxy_denies, squidguard_denies, world_after_proxy,
            sg_after, hb, hbr, hp, hs]
    | some r =>
      by_cases hbd : r = 0
      · cases hp : o.proxy_ip with
        | none =>
          by_cases hs : o.squidguard = 0
          · simp [squidguard_block, proxy_block, blacklist_block, expected_calls, chain_denies,
              blacklist_denies, blacklist_faults, proxy_denies, squidguard_denies, world_after_proxy,
              sg_after, hb, hbr, hbd, hp, hs]
          · simp [squidguard_block, proxy_block, blacklist_block, expected_calls, chain_denies,
              blacklist_denies, blacklist_faults, proxy_denies, squidguard_denies, world_after_proxy,
              sg_after, hb, hbr, hbd, hp, hs]
        | some ip =>
          by_cases hpd : (x.proxy_backend ip o.proxy_port o.proxy_deny_pattern request.url w).1 = 0
          · by_cases hs : o.squidguard = 0
            · simp [squidguard_block, proxy_block, blacklist_block, expected_calls, chain_denies,
                blacklist_denies, blacklist_faults, proxy_denies, squidguard_denies, world_after_proxy,
                sg_after, hb, hbr, hbd, hp, hpd, hs]
            · simp [squidguard_block, proxy_block, blacklist_block, expected_calls, chain_denies,
                blacklist_denies, blacklist_faults, proxy_denies, squidguard_denies, world_after_proxy,
                sg_after, hb, hbr, hbd, hp, hpd, hs]
          · by_cases hs : o.squidguard = 0
            · simp [squidguard_block, proxy_block, blacklist_block, expected_calls, chain_denies,
                blacklist_denies, blacklist_faults, proxy_denies, squidguard_denies, world_after_proxy,
                sg_after, hb, hbr, hbd, hp, hpd, hs]
            · simp [squidguard_block, proxy_block, blacklist_block, expected_calls, chain_denies,
                blacklist_denies, blacklist_faults, proxy_denies, squidguard_denies, world_after_proxy,
                sg_after, hb, hbr, hbd, hp, hpd, hs]
      · cases hp : o.proxy_ip with
        | none =>
          by_cases hs : o.squidguard = 0
          · simp [squidguard_block, proxy_block, blacklist_block, expected_calls, chain_denies,
              blacklist_denies, blacklist_faults, proxy_denies, squidguard_denies, world_after_proxy,
              sg_after, hb, hbr, hbd, hp, hs]
          · simp [squidguard_block, proxy_block, blacklist_block, expected_calls, chain_denies,
              blacklist_denies, blacklist_faults, proxy_denies, squidguard_denies, world_after_proxy,
              sg_after, hb, hbr, hbd, hp, hs]
        | some ip =>
          by_cases hs : o.squidguard = 0
          · simp [squidguard_block, proxy_block, blacklist_block, expected_calls, chain_denies,
              blacklist_denies, blacklist_faults, proxy_denies, squidguard_denies, world_after_proxy,
              sg_after, hb, hbr, hbd, hp, hs]
          · simp [squidguard_block, proxy_block, blacklist_block, expected_calls, chain_denies,
              blacklist_denies, blacklist_faults, proxy_denies, squidguard_denies, world_after_proxy,
              sg_after, hb, hbr, hbd, hp, hs]

theorem chain_hit {W : Type} (o : Options) (x : Externals W) (request : uf_request)
    (cached : Int) (hc : cached ≠ 0) (c : Chain W) :
    blacklist_block o request cached c = c ∧
    squidguard_block o x request cached (proxy_block o x request cached c) = c := by
  have h1 : blacklist_block o request cached c = c := by
    unfold blacklist_block
    cases o.blacklist <;> simp [hc]
  have h2 : proxy_block o x request cached c = c := by
    unfold proxy_block
    cases o.proxy_ip <;> simp [hc]
  have h3 : squidguard_block o x request cached c = c := by
    unfold squidguard_block
    simp [hc]
  rw [h2, h3]
  exact ⟨h1, rfl⟩

theorem after_lookup_miss {W : Type} (o : Options) (x : Externals W) (msg : Msg)
    (request : uf_request) (l : Locals) (hash : Hash) (ret : Int) (w : W)
    (hd : l.denied = 0) (hret : ret = 0 ∨ ret = -1) :
    (after_lookup o x msg request l hash ret w).1 =
      expected_calls o x request w ++
        (if blacklist_faults o request.url = true then [Event.sigsegv]
        else if chain_denies o x request l.sg_redirect w = true then
          [deny_reply o l msg (sg_after o x request l.sg_redirect w)]
        else [accept_reply o l msg, Event.add_cache l.cachedb hash]) ∧
    ((after_lookup o x msg request l hash ret w).2 = none ↔
      blacklist_faults o request.url = true) := by
  have hcached : (if ret = -1 then (0 : Int) else ret) = 0 := by
    rcases hret with h | h <;> simp [h]
  obtain ⟨hk, hft, hrest⟩ := chain_miss o x request l.sg_redirect w
  unfold after_lookup
  simp only [hcached, hd]
  rw [hk]
  by_cases hf : blacklist_faults o request.url = true
  · rw [if_pos hf, if_pos hf, hft hf]
    exact ⟨rfl, fun _ => hf, fun _ => rfl⟩
  · have hf2 : blacklist_faults o request.url = false := by simpa using hf
    obtain ⟨htr, hden, hsg⟩ := hrest hf2
    rw [if_neg hf, if_neg hf]
    by_cases hcd : chain_denies o x request l.sg_redirect w = true
    · have hne := hden.mpr hcd
      rw [if_pos hne, if_pos hcd, htr, hsg]
      exact ⟨rfl, fun h => by simp at h, fun h => absurd h hf⟩
    · have hne : ¬ (squidguard_block o x request 0 (proxy_block o x request 0
          (blacklist_block o request 0
            { denied := 0, sg_redirect := l.sg_redirect, world := w, trace := [],
              killed := false }))).denied ≠ 0 :=
        fun h => hcd (hden.mp h)
      rw [if_neg hne, if_neg hcd, htr]
      exact ⟨by simp, fun h => by simp at h, fun h => absurd h hf⟩

theorem after_lookup_hit {W : Type} (o : Options) (x : Externals W) (msg : Msg)
    (request : uf_request) (l : Locals) (hash : Hash) (ret : Int) (w : W)
    (hd : l.denied = 0) (h0 : ret ≠ 0) (h1 : ret ≠ -1) :
    after_lookup o x msg request l hash ret w =
      ([accept_reply o l msg], some ({ l with denied := 0, cached := ret, hash := hash }, w)) := by
  have hcached : (if ret = -1 then (0 : Int) else ret) = ret := by simp [h1]
  unfold after_lookup
  simp only [hcached]
  rw [(chain_hit o x request ret h0 _).1, (chain_hit o x request ret h0 _).2]
  simp [hd, h0]

theorem after_lookup_some {W : Type} (o : Options) (x : Externals W) (msg : Msg)
    (request : uf_request) (l : Locals) (hash : Hash) (ret : Int) (w : W) (l1 : Locals)
    (w1 : W) (h : (after_lookup o x msg request l hash ret w).2 = some (l1, w1)) :
    l1.denied = 0 ∧ l1.cachedb = l.cachedb := by
  unfold after_lookup at h
  simp only [] at h
  split_ifs at h <;>
    simp only [Option.some.injEq, Prod.mk.injEq, reduceCtorEq] at h <;>
    (obtain ⟨h1, -⟩ := h; rw [← h1]; exact ⟨rfl, rfl⟩)

theorem set_pointer_fields (o : Options) (l : Locals) :
    (set_pointer o l).denied = l.denied ∧ (set_pointer o l).cachedb = l.cachedb ∧
    (set_pointer o l).sg_redirect = l.sg_redirect ∧
    (o.frontend = Frontend.N2H2 → (set_pointer o l).n2h2_request = true) ∧
    (o.frontend = Frontend.WEBSNS → (set_pointer o l).websns_request = true) := by
  unfold set_pointer
  cases o.frontend <;> simp

theorem session_step_url {W : Type} (o : Options) (x : Externals W) (msgsize : Int)
    (msg : Msg) (l : Locals) (w : W) (hsz : 1 ≤ msgsize)
    (ht : (decode o x msgsize msg).2.type.isUrlCheck = true) :
    session_step o x msgsize msg l w =
      url_request o x (decode o x msgsize msg).1 (decode o x msgsize msg).2
        (set_pointer o l) w := by
  have hsz2 : ¬ msgsize < 1 := by omega
  unfold session_step
  rw [if_neg hsz2]
  cases hty : (decode o x msgsize msg).2.type <;> simp_all [ReqType.isUrlCheck]

theorem session_step_denied {W : Type} (o : Options) (x : Externals W) (msgsize : Int)
    (msg : Msg) (l : Locals) (w : W) (tr : List Event) (l1 : Locals) (w1 : W)
    (h : session_step o x msgsize msg l w = (tr, some (l1, w1))) (hd : l.denied = 0) :
    l1.denied = 0 := by
  unfold session_step at h
  by_cases hsz : msgsize < 1
  · simp [hsz] at h
  · simp only [if_neg hsz] at h
    cases ht : (decode o x msgsize msg).2.type with
    | UNKNOWN => simp [ht] at h
    | N2H2_ALIVE =>
      simp only [ht, Prod.mk.injEq, Option.some.injEq] at h
      rw [← h.2.1, (set_pointer_fields o l).1, hd]
    | WEBSNS_ALIVE =>
      simp only [ht, Prod.mk.injEq, Option.some.injEq] at h
      rw [← h.2.1, (set_pointer_fields o l).1, hd]
    | N2H2_REQ =>
      simp only [ht] at h
      have h2 := congrArg Prod.snd h
      exact (after_lookup_some _ _ _ _ _ _ _ _ _ _ h2).1
    | WEBSNS_REQ =>
      simp only [ht] at h
      have h2 := congrArg Prod.snd h
      exact (after_lookup_some _ _ _ _ _ _ _ _ _ _ h2).1

theorem session_loop_denied {W : Type} (o : Options) (x : Externals W) :
    ∀ (inputs : List (Int × Msg)) (l : Locals) (w : W) (l1 : Locals) (w1 : W),
      (session_loop o x inputs l w).2 = some (l1, w1) → l.denied = 0 → l1.denied = 0 := by
  intro inputs
  induction inputs with
  | nil =>
    intro l w l1 w1 h hd
    simp only [session_loop, Option.some.injEq, Prod.mk.injEq] at h
    rw [← h.1, hd]
  | cons i rest ih =>
    intro l w l1 w1 h hd
    obtain ⟨msgsize, msg⟩ := i
    unfold session_loop at h
    cases hs : session_step o x msgsize msg l w with
    | mk tr r =>
      cases r with
      | none => simp [hs] at h
      | some p =>
        obtain ⟨l2, w2⟩ := p
        simp only [hs] at h
        exact ih l2 w2 l1 w1 h (session_step_denied o x msgsize msg l w tr l2 w2 hs hd)

theorem reached_denied {W : Type} (o : Options) (x : Externals W) (sg0 : Str) (hash0 : Hash)
    (w0 : W) (pre : List (Int × Msg)) (l : Locals) (w : W)
    (h : reached o x sg0 hash0 w0 pre = some (l, w)) : l.denied = 0 := by
  unfold reached child at h
  simp only at h
  refine session_loop_denied o x pre _ _ l w h ?_
  unfold child_start
  split_ifs <;> rfl

theorem deny_reply_kind (o : Options) (l : Locals) (msg : Msg) (sg : Str) :
    (deny_reply o l msg sg).isDeny = true ∧ (deny_reply o l msg sg).isAccept = false ∧
    (deny_reply o l msg sg).isBackend = false ∧ (deny_reply o l msg sg).isProxy = false ∧
    (deny_reply o l msg sg).isSquidguard = false ∧
    (deny_reply o l msg sg).isCacheWrite = false ∧ (deny_reply o l msg sg).isFault = false := by
  unfold deny_reply
  split_ifs <;> simp [Event.isDeny, Event.isAccept, Event.isBackend, Event.isProxy,
    Event.isSquidguard, Event.isCacheWrite, Event.isFault]

theorem accept_reply_kind (o : Options) (l : Locals) (msg : Msg) :
    (accept_reply o l msg).isDeny = false ∧ (accept_reply o l msg).isAccept = true ∧
    (accept_reply o l msg).isBackend = false ∧ (accept_reply o l msg).isProxy = false ∧
    (accept_reply o l msg).isSquidguard = false ∧
    (accept_reply o l msg).isCacheWrite = false ∧ (accept_reply o l msg).isFault = false := by
  unfold accept_reply
  split_ifs <;> simp [Event.isDeny, Event.isAccept, Event.isBackend, Event.isProxy,
    Event.isSquidguard, Event.isCacheWrite, Event.isFault]

theorem expected_calls_kind {W : Type} (o : Options) (x : Externals W) (request : uf_request)
    (w : W) :
    (∀ e ∈ expected_calls o x request w,
      e.isBackend = true ∧ e.isDeny = false ∧ e.isAccept = false ∧ e.isCacheWrite = false ∧
      e.isFault = false) ∧
    (blacklist_denies o request.url = true →
      ∀ e ∈ expected_calls o x request w, e.isProxy = false ∧ e.isSquidguard = false) ∧
    (proxy_denies o x request.url w = true →
      ∀ e ∈ expected_calls o x request w, e.isSquidguard = false) ∧
    (blacklist_faults o request.url = true →
      ∀ e ∈ expected_calls o x request w, e.isProxy = false ∧ e.isSquidguard = false) := by
  unfold expected_calls
  refine ⟨?_, ?_, ?_, ?_⟩
  · intro e he
    cases hb : o.blacklist <;> cases hp : o.proxy_ip <;> simp only [hb, hp] at he <;>
      split_ifs at he <;>
      simp only [List.nil_append, List.append_nil, List.mem_cons, List.mem_append,
        List.mem_singleton, List.not_mem_nil, or_false, false_or] at he <;>
      (try rcases he with he | he | he) <;> (try rcases he with he | he) <;>
      (try subst he) <;>
      simp_all [Event.isBackend, Event.isDeny, Event.isAccept, Event.isCacheWrite,
        Event.isFault]
  · intro hbd e he
    cases hb : o.blacklist <;> cases hp : o.proxy_ip <;> simp only [hb, hp, hbd] at he <;>
      simp_all [Event.isProxy, Event.isSquidguard]
  · intro hpd e he
    cases hb : o.blacklist <;> cases hp : o.proxy_ip <;> simp only [hb, hp, hpd] at he <;>
      split_ifs at he <;>
      (simp_all [Event.isProxy, Event.isSquidguard]
       try (rcases he with rfl | rfl; all_goals rfl))
  · intro hbf e he
    cases hb : o.blacklist <;> cases hp : o.proxy_ip <;> simp only [hb, hp, hbf] at he <;>
      simp_all [Event.isProxy, Event.isSquidguard]

theorem faults_not_denies {W : Type} (o : Options) (x : Externals W) (request : uf_request)
    (sg : Str) (w : W) (hf : blacklist_faults o request.url = true) :
    chain_denies o x request sg w = false := by
  unfold blacklist_faults at hf
  unfold chain_denies blacklist_denies blacklist_faults
  cases hb : o.blacklist with
  | none => simp [hb] at hf
  | some optarg =>
    simp only [hb] at hf
    cases hbr : blacklist_backend_at (blacklist_rows optarg o.blacklist_beyond) request.url
        o.debug with
    | none => simp [hbr]
    | some r => simp [hbr] at hf

theorem exists_in_trace (P : Event → Bool) (a b : Event) (E T : List Event)
    (ha : P a = false) (hb : P b = false) (hE : ∀ e ∈ E, P e = false) :
    (∃ e ∈ a :: b :: (E ++ T), P e = true) ↔ ∃ e ∈ T, P e = true := by
  constructor
  · rintro ⟨e, he, hp⟩
    simp only [List.mem_cons, List.mem_append] at he
    rcases he with rfl | rfl | he | he
    · rw [ha] at hp; exact absurd hp (by decide)
    · rw [hb] at hp; exact absurd hp (by decide)
    · rw [hE e he] at hp; exact absurd hp (by decide)
    · exact ⟨e, he, hp⟩
  · rintro ⟨e, he, hp⟩
    exact ⟨e, List.mem_cons_of_mem _ (List.mem_cons_of_mem _ (List.mem_append_right _ he)), hp⟩

theorem reply_events_kind {W : Type} (o : Options) (x : Externals W) (msg : Msg)
    (request : uf_request) (l : Locals) (hash : Hash) (w : W) :
    (∀ e ∈ reply_events o x msg request l hash w,
      e.isBackend = false ∧ e.isProxy = false ∧ e.isSquidguard = false) ∧
    ((∃ e ∈ reply_events o x msg request l hash w, e.isDeny = true) ↔
      chain_denies o x request l.sg_redirect w = true) ∧
    ((∃ e ∈ reply_events o x msg request l hash w, e.isAccept = true) ↔
      chain_denies o x request l.sg_redirect w = false ∧
        blacklist_faults o request.url = false) ∧
    ((∃ e ∈ reply_events o x msg request l hash w, e.isFault = true) ↔
      blacklist_faults o request.url = true) ∧
    ((∃ e ∈ reply_events o x msg request l hash w, e.isCacheWrite = true) ↔
      chain_denies o x request l.sg_redirect w = false ∧
        blacklist_faults o request.url = false) := by
  have hdk := deny_reply_kind o l msg (sg_after o x request l.sg_redirect w)
  have hak := accept_reply_kind o l msg
  unfold reply_events
  by_cases hf : blacklist_faults o request.url = true
  · have hcd := faults_not_denies o x request l.sg_redirect w hf
    simp [hf, hcd, Event.isBackend, Event.isProxy, Event.isSquidguard, Event.isDeny,
      Event.isAccept, Event.isFault, Event.isCacheWrite]
  · have hf2 : blacklist_faults o request.url = false := by simpa using hf
    by_cases hcd : chain_denies o x request l.sg_redirect w = true
    · simp [hf2, hcd, hdk.1, hdk.2.1, hdk.2.2.1, hdk.2.2.2.1, hdk.2.2.2.2.1, hdk.2.2.2.2.2.1,
        hdk.2.2.2.2.2.2]
    · have hcd2 : chain_denies o x request l.sg_redirect w = false := by simpa using hcd
      have w1 : (Event.add_cache l.cachedb hash).isBackend = false := rfl
      have w2 : (Event.add_cache l.cachedb hash).isProxy = false := rfl
      have w3 : (Event.add_cache l.cachedb hash).isSquidguard = false := rfl
      have w4 : (Event.add_cache l.cachedb hash).isDeny = false := rfl
      have w5 : (Event.add_cache l.cachedb hash).isAccept = false := rfl
      have w6 : (Event.add_cache l.cachedb hash).isFault = false := rfl
      have w7 : (Event.add_cache l.cachedb hash).isCacheWrite = true := rfl
      simp [hf2, hcd2, hak.1, hak.2.1, hak.2.2.1, hak.2.2.2.1, hak.2.2.2.2.1, hak.2.2.2.2.2.1,
        hak.2.2.2.2.2.2, w1, w2, w3, w4, w5, w6, w7]

theorem session_step_miss {W : Type} (o : Options) (x : Externals W) (msgsize : Int)
    (msg : Msg) (l : Locals) (w : W) (hd : l.denied = 0) (hsz : 1 ≤ msgsize)
    (hreq : (request_of o x msgsize msg).type.isUrlCheck = true)
    (hmiss : (lookup o x l (request_of o x msgsize msg).url w).1 = 0 ∨
      (lookup o x l (request_of o x msgsize msg).url w).1 = -1) :
    (session_step o x msgsize msg l w).1 =
      Event.get_hash (request_of o x msgsize msg).url ::
      Event.in_cache l.cachedb (x.get_hash (request_of o x msgsize msg).url) o.cache_exp_secs ::
      (expected_calls o x (request_of o x msgsize msg)
          (lookup o x l (request_of o x msgsize msg).url w).2 ++
        reply_events o x (decode o x msgsize msg).1 (request_of o x msgsize msg)
          (set_pointer o l) (x.get_hash (request_of o x msgsize msg).url)
          (lookup o x l (request_of o x msgsize msg).url w).2) ∧
    ((session_step o x msgsize msg l w).2 = none ↔
      blacklist_faults o (request_of o x msgsize msg).url = true) := by
  obtain ⟨hpd, hpc, hps, -, -⟩ := set_pointer_fields o l
  unfold request_of at hreq
  rw [session_step_url o x msgsize msg l w hsz hreq]
  unfold lookup request_of at hmiss
  rw [← hpc] at hmiss
  unfold url_request
  simp only []
  obtain ⟨h1, h2⟩ := after_lookup_miss o x (decode o x msgsize msg).1
    (decode o x msgsize msg).2 (set_pointer o l)
    (x.get_hash (decode o x msgsize msg).2.url) _ _ (by rw [hpd, hd]) hmiss
  rw [h1, h2]
  simp only [hpc, hps, lookup, request_of, reply_events]
  exact ⟨trivial, trivial⟩

theorem session_step_hit {W : Type} (o : Options) (x : Externals W) (l : Locals) (w : W)
    (msgsize : Int) (msg : Msg) (hd : l.denied = 0) (hsz : 1 ≤ msgsize)
    (hreq : (request_of o x msgsize msg).type.isUrlCheck = true)
    (h0 : (lookup o x l (request_of o x msgsize msg).url w).1 ≠ 0)
    (h1 : (lookup o x l (request_of o x msgsize msg).url w).1 ≠ -1) :
    session_step o x msgsize msg l w =
      ([Event.get_hash (request_of o x msgsize msg).url,
        Event.in_cache l.cachedb (x.get_hash (request_of o x msgsize msg).url) o.cache_exp_secs,
        accept_reply o (set_pointer o l) (decode o x msgsize msg).1],
       some ({ set_pointer o l with
                denied := 0
                cached := (lookup o x l (request_of o x msgsize msg).url w).1
                hash := x.get_hash (request_of o x msgsize msg).url },
             (lookup o x l (request_of o x msgsize msg).url w).2)) := by
  obtain ⟨hpd, hpc, -, -, -⟩ := set_pointer_fields o l
  unfold request_of at hreq
  rw [session_step_url o x msgsize msg l w hsz hreq]
  unfold lookup request_of at h0 h1
  rw [← hpc] at h0 h1
  unfold url_request
  simp only []
  rw [after_lookup_hit o x _ _ (set_pointer o l) _ _ _ (by rw [hpd, hd]) h0 h1]
  simp only [hpc, lookup, request_of]

/-- C3: for every URL check whose cache lookup is a hit (`in_cache` returns a value
other than 0 and -1), in any state the connection can be in after earlier requests,
the calls made are exactly `get_hash`, `in_cache` and the accept reply: no backend
is called, nothing is written to the cache, and the session awaits the next
message with `denied` equal to 0. -/
theorem cache_hit_skips_backends {W : Type} (o : Options) (x : Externals W) (sg0 : Str)
    (hash0 : Hash) (w0 : W) (pre : List (Int × Msg)) (l : Locals) (w : W) (msgsize : Int)
    (msg : Msg) (hreach : reached o x sg0 hash0 w0 pre = some (l, w)) (hsz : 1 ≤ msgsize)
    (hreq : (request_of o x msgsize msg).type.isUrlCheck = true)
    (h0 : (lookup o x l (request_of o x msgsize msg).url w).1 ≠ 0)
    (h1 : (lookup o x l (request_of o x msgsize msg).url w).1 ≠ -1) :
    l.denied = 0 ∧
    (session_step o x msgsize msg l w).1 =
      [Event.get_hash (request_of o x msgsize msg).url,
        Event.in_cache l.cachedb (x.get_hash (request_of o x msgsize msg).url) o.cache_exp_secs,
        accept_reply o (set_pointer o l) (decode o x msgsize msg).1] ∧
    (accept_reply o (set_pointer o l) (decode o x msgsize msg).1).isAccept = true ∧
    (∀ e ∈ (session_step o x msgsize msg l w).1,
      e.isBackend = false ∧ e.isDeny = false ∧ e.isCacheWrite = false) ∧
    (∃ l1, (session_step o x msgsize msg l w).2 =
        some (l1, (lookup o x l (request_of o x msgsize msg).url w).2) ∧ l1.denied = 0) := by
  have hd := reached_denied o x sg0 hash0 w0 pre l w hreach
  have hak := accept_reply_kind o (set_pointer o l) (decode o x msgsize msg).1
  rw [session_step_hit o x l w msgsize msg hd hsz hreq h0 h1]
  refine ⟨hd, rfl, hak.2.1, ?_, ⟨_, rfl, rfl⟩⟩
  intro e he
  simp only [List.mem_cons, List.mem_singleton, List.not_mem_nil, or_false] at he
  rcases he with rfl | rfl | rfl
  · simp [Event.isBackend, Event.isDeny, Event.isCacheWrite]
  · simp [Event.isBackend, Event.isDeny, Event.isCacheWrite]
  · exact ⟨hak.2.2.1, hak.1, hak.2.2.2.2.2.1⟩

theorem after_lookup_fail {W : Type} (o : Options) (x : Externals W) (msg : Msg)
    (request : uf_request) (l : Locals) (hash : Hash) (w : W) :
    after_lookup o x msg request l hash (-1) w = after_lookup o x msg request l hash 0 w := by
  unfold after_lookup
  simp

/-- C9: for every message received (`recvfrom` returned at least 1), whatever
the state of the connection: when the request type is UNKNOWN the child closes the
cache handle and the socket and exits, with no reply and no dispatcher call, and no
later message is read; when it is the keep-alive probe of the configured frontend
the only call is the alive reply on the message just received, and the session
awaits the next message in the same world; and a call of the dispatcher (hash,
cache lookup, cache write, backend, verdict reply) occurs only when the request
type is N2H2_REQ or WEBSNS_REQ. -/
theorem only_url_checks_dispatch {W : Type} (o : Options) (x : Externals W) (l : Locals)
    (w : W) (msgsize : Int) (msg : Msg) (hsz : 1 ≤ msgsize) :
    ((request_of o x msgsize msg).type = ReqType.UNKNOWN →
      session_step o x msgsize msg l w =
        ([Event.close_cache l.cachedb, Event.close_cli, Event.exit 1], none) ∧
      ∀ rest, session_loop o x ((msgsize, msg) :: rest) l w =
        ([Event.close_cache l.cachedb, Event.close_cli, Event.exit 1], none)) ∧
    (o.frontend = Frontend.N2H2 → (request_of o x msgsize msg).type = ReqType.N2H2_ALIVE →
      session_step o x msgsize msg l w =
        ([Event.n2h2_alive (some msg)], some (set_pointer o l, w))) ∧
    (o.frontend = Frontend.WEBSNS → (request_of o x msgsize msg).type = ReqType.WEBSNS_ALIVE →
      session_step o x msgsize msg l w =
        ([Event.websns_alive (some (x.websns_convert msg msgsize))],
          some (set_pointer o l, w))) ∧
    ((request_of o x msgsize msg).type.isUrlCheck = false →
      ∀ e ∈ (session_step o x msgsize msg l w).1, e.isDispatch = false) ∧
    ((request_of o x msgsize msg).type = ReqType.N2H2_ALIVE ∨
      (request_of o x msgsize msg).type = ReqType.WEBSNS_ALIVE →
      (session_step o x msgsize msg l w).2 = some (set_pointer o l, w)) := by
  have hsz2 : ¬ msgsize < 1 := by omega
  unfold request_of
  refine ⟨?_, ?_, ?_, ?_, ?_⟩
  · intro ht
    have hstep : session_step o x msgsize msg l w =
        ([Event.close_cache l.cachedb, Event.close_cli, Event.exit 1], none) := by
      unfold session_step
      simp [hsz2, ht]
    refine ⟨hstep, fun rest => ?_⟩
    rw [session_loop, hstep]
  · intro hf ht
    unfold session_step
    simp only [if_neg hsz2, ht]
    simp [set_pointer, decode, hf, deref]
  · intro hf ht
    unfold session_step
    simp only [if_neg hsz2, ht]
    simp [set_pointer, decode, hf, deref]
  · intro ht e he
    unfold session_step at he
    simp only [if_neg hsz2] at he
    cases hty : (decode o x msgsize msg).2.type with
    | UNKNOWN =>
      simp only [hty, List.mem_cons, List.mem_singleton, List.not_mem_nil, or_false] at he
      rcases he with rfl | rfl | rfl <;> rfl
    | N2H2_ALIVE =>
      simp only [hty, List.mem_singleton] at he
      rw [he]
      rfl
    | WEBSNS_ALIVE =>
      simp only [hty, List.mem_singleton] at he
      rw [he]
      rfl
    | N2H2_REQ =>
      rw [hty] at ht
      exact absurd ht (by decide)
    | WEBSNS_REQ =>
      rw [hty] at ht
      exact absurd ht (by decide)
  · intro ht
    unfold session_step
    simp only [if_neg hsz2]
    rcases ht with ht | ht <;> simp [ht]

/-! ## Theorems: the cache is written only on an allow decision -/

theorem session_step_deny_no_write {W : Type} (o : Options) (x : Externals W) (l : Locals)
    (w : W) (msgsize : Int) (msg : Msg) (hd : l.denied = 0) (hsz : 1 ≤ msgsize)
    (hreq : (request_of o x msgsize msg).type.isUrlCheck = true) :
    ((∃ e ∈ (session_step o x msgsize msg l w).1, e.isDeny = true) →
      (∀ e ∈ (session_step o x msgsize msg l w).1, e.isCacheWrite = false) ∧
      ((lookup o x l (request_of o x msgsize msg).url w).1 = 0 ∨
        (lookup o x l (request_of o x msgsize msg).url w).1 = -1) ∧
      chain_denies o x (request_of o x msgsize msg) l.sg_redirect
        (lookup o x l (request_of o x msgsize msg).url w).2 = true) ∧
    ((∃ e ∈ (session_step o x msgsize msg l w).1, e.isCacheWrite = true) →
      (∃ e ∈ (session_step o x msgsize msg l w).1, e.isAccept = true) ∧
      ∀ e ∈ (session_step o x msgsize msg l w).1, e.isDeny = false) := by
  have hak := accept_reply_kind o (set_pointer o l) (decode o x msgsize msg).1
  by_cases hmiss : (lookup o x l (request_of o x msgsize msg).url w).1 = 0 ∨
      (lookup o x l (request_of o x msgsize msg).url w).1 = -1
  · obtain ⟨htr, -⟩ := session_step_miss o x msgsize msg l w hd hsz hreq hmiss
    obtain ⟨hk, -, -, -⟩ := expected_calls_kind o x (request_of o x msgsize msg)
      (lookup o x l (request_of o x msgsize msg).url w).2
    obtain ⟨-, hrd, hra, -, hrw⟩ := reply_events_kind o x (decode o x msgsize msg).1
      (request_of o x msgsize msg) (set_pointer o l)
      (x.get_hash (request_of o x msgsize msg).url)
      (lookup o x l (request_of o x msgsize msg).url w).2
    rw [(set_pointer_fields o l).2.2.1] at hrd hra hrw
    rw [htr]
    have hD := exists_in_trace Event.isDeny
      (Event.get_hash (request_of o x msgsize msg).url)
      (Event.in_cache l.cachedb (x.get_hash (request_of o x msgsize msg).url) o.cache_exp_secs)
      _ (reply_events o x (decode o x msgsize msg).1 (request_of o x msgsize msg)
        (set_pointer o l) (x.get_hash (request_of o x msgsize msg).url)
        (lookup o x l (request_of o x msgsize msg).url w).2)
      rfl rfl (fun e he => (hk e he).2.1)
    have hW := exists_in_trace Event.isCacheWrite
      (Event.get_hash (request_of o x msgsize msg).url)
      (Event.in_cache l.cachedb (x.get_hash (request_of o x msgsize msg).url) o.cache_exp_secs)
      _ (reply_events o x (decode o x msgsize msg).1 (request_of o x msgsize msg)
        (set_pointer o l) (x.get_hash (request_of o x msgsize msg).url)
        (lookup o x l (request_of o x msgsize msg).url w).2)
      rfl rfl (fun e he => (hk e he).2.2.2.1)
    have hA := exists_in_trace Event.isAccept
      (Event.get_hash (request_of o x msgsize msg).url)
      (Event.in_cache l.cachedb (x.get_hash (request_of o x msgsize msg).url) o.cache_exp_secs)
      _ (reply_events o x (decode o x msgsize msg).1 (request_of o x msgsize msg)
        (set_pointer o l) (x.get_hash (request_of o x msgsize msg).url)
        (lookup o x l (request_of o x msgsize msg).url w).2)
      rfl rfl (fun e he => (hk e he).2.2.1)
    refine ⟨fun hdeny => ?_, fun hwrite => ?_⟩
    · have hcd := hrd.mp (hD.mp hdeny)
      refine ⟨fun e he => ?_, hmiss, hcd⟩
      cases hb : e.isCacheWrite with
      | false => rfl
      | true =>
        have := (hrw.mp (hW.mp ⟨e, he, hb⟩)).1
        rw [hcd] at this
        exact absurd this (by decide)
    · have hcw := hrw.mp (hW.mp hwrite)
      refine ⟨hA.mpr (hra.mpr hcw), fun e he => ?_⟩
      cases hb : e.isDeny with
      | false => rfl
      | true =>
        have := hrd.mp (hD.mp ⟨e, he, hb⟩)
        rw [hcw.1] at this
        exact absurd this (by decide)
  · have h0 : (lookup o x l (request_of o x msgsize msg).url w).1 ≠ 0 := fun h => hmiss (Or.inl h)
    have h1 : (lookup o x l (request_of o x msgsize msg).url w).1 ≠ -1 :=
      fun h => hmiss (Or.inr h)
    rw [session_step_hit o x l w msgsize msg hd hsz hreq h0 h1]
    refine ⟨?_, ?_⟩
    · rintro ⟨e, he, hde⟩
      exfalso
      simp only [List.mem_cons, List.mem_singleton, List.not_mem_nil, or_false] at he
      rcases he with rfl | rfl | rfl
      · simp [Event.isDeny] at hde
      · simp [Event.isDeny] at hde
      · rw [hak.1] at hde
        exact absurd hde (by decide)
    · rintro ⟨e, he, hw⟩
      exfalso
      simp only [List.mem_cons, List.mem_singleton, List.not_mem_nil, or_false] at he
      rcases he with rfl | rfl | rfl
      · simp [Event.isCacheWrite] at hw
      · simp [Event.isCacheWrite] at hw
      · rw [hak.2.2.2.2.2.1] at hw
        exact absurd hw (by decide)

theorem chain_store {V : Type} (o : Options) (x : Externals V) (request : uf_request)
    (cached : Int) (c : Chain (CacheWorld V)) :
    (squidguard_block o (with_spec_cache x) request cached
      (proxy_block o (with_spec_cache x) request cached
        (blacklist_block o request cached c))).world.store = c.world.store ∧
    (squidguard_block o (with_spec_cache x) request cached
      (proxy_block o (with_spec_cache x) request cached
        (blacklist_block o request cached c))).world.now = c.world.now := by
  have h1 : (blacklist_block o request cached c).world = c.world := by
    unfold blacklist_block
    cases o.blacklist with
    | none => rfl
    | some a =>
      simp only []
      split_ifs
      · cases blacklist_backend_at (blacklist_rows a o.blacklist_beyond) request.url o.debug <;>
          rfl
      · rfl
  have h2 : ∀ c : Chain (CacheWorld V),
      (proxy_block o (with_spec_cache x) request cached c).world.store = c.world.store ∧
      (proxy_block o (with_spec_cache x) request cached c).world.now = c.world.now := by
    intro c
    unfold proxy_block
    cases o.proxy_ip with
    | none => exact ⟨rfl, rfl⟩
    | some a => simp only []; split_ifs <;> exact ⟨rfl, rfl⟩
  have h3 : ∀ c : Chain (CacheWorld V),
      (squidguard_block o (with_spec_cache x) request cached c).world.store = c.world.store ∧
      (squidguard_block o (with_spec_cache x) request cached c).world.now = c.world.now := by
    intro c
    unfold squidguard_block
    split_ifs <;> exact ⟨rfl, rfl⟩
  rw [(h3 _).1, (h3 _).2, (h2 _).1, (h2 _).2, h1]
  exact ⟨rfl, rfl⟩

theorem after_lookup_store {V : Type} (o : Options) (x : Externals V) (msg : Msg)
    (request : uf_request) (l : Locals) (hash : Hash) (ret : Int) (w : CacheWorld V)
    (l1 : Locals) (c1 : CacheWorld V)
    (h : (after_lookup o (with_spec_cache x) msg request l hash ret w).2 = some (l1, c1)) :
    c1.now = w.now ∧
    ((∀ e ∈ (after_lookup o (with_spec_cache x) msg request l hash ret w).1,
        e.isCacheWrite = false) → c1.store = w.store) := by
  unfold after_lookup at h ⊢
  simp only [] at h ⊢
  generalize (if ret = -1 then (0 : Int) else ret) = cached at h ⊢
  have hc := chain_store o x request cached
    { denied := l.denied, sg_redirect := l.sg_redirect, world := w, trace := [],
      killed := false }
  split_ifs at h ⊢ with hk h1 h2
  · simp only [Option.some.injEq, Prod.mk.injEq] at h
    rw [← h.2]
    exact ⟨hc.2, fun _ => hc.1⟩
  · simp only [Option.some.injEq, Prod.mk.injEq] at h
    rw [← h.2]
    refine ⟨?_, fun hw => ?_⟩
    · show (spec_add_cache l.cachedb hash _).now = w.now
      unfold spec_add_cache
      cases l.cachedb <;> exact hc.2
    · have := hw (Event.add_cache l.cachedb hash) (by simp)
      exact absurd this (by simp [Event.isCacheWrite])
  · simp only [Option.some.injEq, Prod.mk.injEq] at h
    rw [← h.2]
    exact ⟨hc.2, fun _ => hc.1⟩

theorem expected_calls_nonempty {W : Type} (o : Options) (x : Externals W)
    (request : uf_request) (sg : Str) (w w2 : W)
    (h : chain_denies o x request sg w = true) :
    ∃ e ∈ expected_calls o x request w2, e.isBackend = true := by
  unfold chain_denies blacklist_denies blacklist_faults proxy_denies squidguard_denies at h
  unfold expected_calls blacklist_denies blacklist_faults proxy_denies
  cases hb : o.blacklist with
  | some a => exact ⟨Event.blacklist_backend request.url, by simp, rfl⟩
  | none =>
    cases hp : o.proxy_ip with
    | some ip =>
      exact ⟨Event.proxy_backend ip o.proxy_port o.proxy_deny_pattern request.url, by simp, rfl⟩
    | none =>
      simp only [hb, hp] at h
      have hs : o.squidguard ≠ 0 := by
        intro h0
        simp [h0] at h
      exact ⟨Event.squidguard_backend request.srcip request.usr request.url, by simp [hs], rfl⟩

theorem spec_in_cache_still_miss {V : Type} (db : Option DB) (hash : Hash) (ttl : Int)
    (w w2 : CacheWorld V) (hstore : w2.store = w.store) (hnow : w.now ≤ w2.now)
    (hmiss : (spec_in_cache db hash ttl w).1 = 0 ∨ (spec_in_cache db hash ttl w).1 = -1) :
    (spec_in_cache db hash ttl w2).1 = 0 ∨ (spec_in_cache db hash ttl w2).1 = -1 := by
  unfold spec_in_cache at hmiss ⊢
  cases db with
  | none => exact Or.inr rfl
  | some d =>
    simp only [] at hmiss ⊢
    by_cases h1 : ∃ e ∈ w.store, e.1 = hash ∧ w.now - e.2 ≤ ttl
    · rw [if_pos h1] at hmiss
      rcases hmiss with h | h <;> exact absurd h (by decide)
    · have h2 : ¬ ∃ e ∈ w2.store, e.1 = hash ∧ w2.now - e.2 ≤ ttl := by
        rintro ⟨e, he, hh, ht⟩
        rw [hstore] at he
        exact h1 ⟨e, he, hh, by omega⟩
      rw [if_neg h2]
      exact Or.inl rfl

theorem spec_in_cache_world {V : Type} (db : Option DB) (hash : Hash) (ttl : Int)
    (w : CacheWorld V) : (spec_in_cache db hash ttl w).2 = w := by
  unfold spec_in_cache
  cases db <;> rfl

theorem denied_check_repeats {V : Type} (o : Options) (x : Externals V) (l : Locals)
    (c : CacheWorld V) (msgsize : Int) (msg : Msg) (hd : l.denied = 0) (hsz : 1 ≤ msgsize)
    (hreq : (request_of o (with_spec_cache x) msgsize msg).type.isUrlCheck = true)
    (hdeny : ∃ e ∈ (session_step o (with_spec_cache x) msgsize msg l c).1, e.isDeny = true) :
    ∃ l2 c1, (session_step o (with_spec_cache x) msgsize msg l c).2 = some (l2, c1) ∧
      c1.store = c.store ∧
      ∀ c2 : CacheWorld V, c2.store = c1.store → c1.now ≤ c2.now →
        ((lookup o (with_spec_cache x) l2
            (request_of o (with_spec_cache x) msgsize msg).url c2).1 = 0 ∨
          (lookup o (with_spec_cache x) l2
            (request_of o (with_spec_cache x) msgsize msg).url c2).1 = -1) ∧
        ∃ e ∈ (session_step o (with_spec_cache x) msgsize msg l2 c2).1, e.isBackend = true := by
  obtain ⟨hnw, hmiss, hcd⟩ :=
    (session_step_deny_no_write o (with_spec_cache x) l c msgsize msg hd hsz hreq).1 hdeny
  obtain ⟨-, hpc, -, -, -⟩ := set_pointer_fields o l
  have hnf : ¬ blacklist_faults o (request_of o (with_spec_cache x) msgsize msg).url = true := by
    intro hf
    rw [faults_not_denies o (with_spec_cache x) _ _ _ hf] at hcd
    exact absurd hcd (by decide)
  have hnone := (session_step_miss o (with_spec_cache x) msgsize msg l c hd hsz hreq hmiss).2
  have hne : (session_step o (with_spec_cache x) msgsize msg l c).2 ≠ none :=
    fun h => hnf (hnone.mp h)
  obtain ⟨⟨l2, c1⟩, hs2⟩ := Option.ne_none_iff_exists'.mp hne
  have hl2 : l2.denied = 0 :=
    session_step_denied o (with_spec_cache x) msgsize msg l c _ l2 c1
      (Prod.ext rfl hs2) hd
  have hreq2 := hreq
  unfold request_of at hreq2
  have hstep := session_step_url o (with_spec_cache x) msgsize msg l c hsz hreq2
  have hal : (after_lookup o (with_spec_cache x) (decode o (with_spec_cache x) msgsize msg).1
      (decode o (with_spec_cache x) msgsize msg).2 (set_pointer o l)
      ((with_spec_cache x).get_hash (decode o (with_spec_cache x) msgsize msg).2.url)
      (spec_in_cache (set_pointer o l).cachedb
        ((with_spec_cache x).get_hash (decode o (with_spec_cache x) msgsize msg).2.url)
        o.cache_exp_secs c).1
      (spec_in_cache (set_pointer o l).cachedb
        ((with_spec_cache x).get_hash (decode o (with_spec_cache x) msgsize msg).2.url)
        o.cache_exp_secs c).2).2 = some (l2, c1) := by
    rw [hstep] at hs2
    exact hs2
  have htr : ∀ e ∈ (after_lookup o (with_spec_cache x)
      (decode o (with_spec_cache x) msgsize msg).1
      (decode o (with_spec_cache x) msgsize msg).2 (set_pointer o l)
      ((with_spec_cache x).get_hash (decode o (with_spec_cache x) msgsize msg).2.url)
      (spec_in_cache (set_pointer o l).cachedb
        ((with_spec_cache x).get_hash (decode o (with_spec_cache x) msgsize msg).2.url)
        o.cache_exp_secs c).1
      (spec_in_cache (set_pointer o l).cachedb
        ((with_spec_cache x).get_hash (decode o (with_spec_cache x) msgsize msg).2.url)
        o.cache_exp_secs c).2).1, e.isCacheWrite = false := by
    intro e he
    apply hnw e
    rw [hstep]
    exact List.mem_cons_of_mem _ (List.mem_cons_of_mem _ he)
  obtain ⟨hclock0, hkeep0⟩ := after_lookup_store o x _ _ _ _ _ _ l2 c1 hal
  have hw := spec_in_cache_world (set_pointer o l).cachedb
    ((with_spec_cache x).get_hash (decode o (with_spec_cache x) msgsize msg).2.url)
    o.cache_exp_secs c
  have hkeep : c1.store = c.store := (hkeep0 htr).trans (congrArg CacheWorld.store hw)
  have hclock : c1.now = c.now := hclock0.trans (congrArg CacheWorld.now hw)
  have hdb : l2.cachedb = l.cachedb := (after_lookup_some _ _ _ _ _ _ _ _ l2 c1 hal).2.trans hpc
  refine ⟨l2, c1, hs2, hkeep, ?_⟩
  intro c2 hs3 hn2
  have hmiss2 : (lookup o (with_spec_cache x) l2
        (request_of o (with_spec_cache x) msgsize msg).url c2).1 = 0 ∨
      (lookup o (with_spec_cache x) l2
        (request_of o (with_spec_cache x) msgsize msg).url c2).1 = -1 := by
    unfold lookup
    rw [hdb]
    exact spec_in_cache_still_miss _ _ _ c c2 (hs3.trans hkeep) (by rw [← hclock]; exact hn2)
      hmiss
  refine ⟨hmiss2, ?_⟩
  rw [(session_step_miss o (with_spec_cache x) msgsize msg l2 c2 hl2 hsz hreq hmiss2).1]
  obtain ⟨e, he, hb⟩ := expected_calls_nonempty o (with_spec_cache x)
    (request_of o (with_spec_cache x) msgsize msg) l.sg_redirect
    (lookup o (with_spec_cache x) l (request_of o (with_spec_cache x) msgsize msg).url c).2
    (lookup o (with_spec_cache x) l2 (request_of o (with_spec_cache x) msgsize msg).url c2).2
    hcd
  exact ⟨e, List.mem_cons_of_mem _ (List.mem_cons_of_mem _ (List.mem_append_left _ he)), hb⟩

/-- C4: for every URL check, in any state the connection can be in, a request that
ends in a deny reply makes no call of `add_cache`, and `add_cache` is called only in
a request that ends in the accept reply. With the Cache Store of the specification
behind `in_cache` and `add_cache`, a denied check leaves the store as it was, so a
later check of the same message on that connection misses the cache again and
calls a backend again. -/
theorem deny_never_cached {W : Type} (o : Options) (x : Externals W) (sg0 : Str)
    (hash0 : Hash) (w0 : W) (pre : List (Int × Msg)) (l : Locals) (w : W) (msgsize : Int)
    (msg : Msg) (hreach : reached o x sg0 hash0 w0 pre = some (l, w)) (hsz : 1 ≤ msgsize)
    (hreq : (request_of o x msgsize msg).type.isUrlCheck = true) :
    ((∃ e ∈ (session_step o x msgsize msg l w).1, e.isDeny = true) →
      ∀ e ∈ (session_step o x msgsize msg l w).1, e.isCacheWrite = false) ∧
    ((∃ e ∈ (session_step o x msgsize msg l w).1, e.isCacheWrite = true) →
      (∃ e ∈ (session_step o x msgsize msg l w).1, e.isAccept = true) ∧
      ∀ e ∈ (session_step o x msgsize msg l w).1, e.isDeny = false) ∧
    (∀ (sg1 : Str) (hash1 : Hash) (c0 : CacheWorld W) (pre1 : List (Int × Msg)) (l1 : Locals)
        (c : CacheWorld W),
      reached o (with_spec_cache x) sg1 hash1 c0 pre1 = some (l1, c) →
      (∃ e ∈ (session_step o (with_spec_cache x) msgsize msg l1 c).1, e.isDeny = true) →
      ∃ l2 c1, (session_step o (with_spec_cache x) msgsize msg l1 c).2 = some (l2, c1) ∧
        c1.store = c.store ∧
        ∀ c2 : CacheWorld W, c2.store = c1.store → c1.now ≤ c2.now →
          ((lookup o (with_spec_cache x) l2
              (request_of o (with_spec_cache x) msgsize msg).url c2).1 = 0 ∨
            (lookup o (with_spec_cache x) l2
              (request_of o (with_spec_cache x) msgsize msg).url c2).1 = -1) ∧
          ∃ e ∈ (session_step o (with_spec_cache x) msgsize msg l2 c2).1,
            e.isBackend = true) := by
  have hd := reached_denied o x sg0 hash0 w0 pre l w hreach
  obtain ⟨h1, h2⟩ := session_step_deny_no_write o x l w msgsize msg hd hsz hreq
  refine ⟨fun h => (h1 h).1, h2, ?_⟩
  intro sg1 hash1 c0 pre1 l1 c hreach1 hdeny
  exact denied_check_repeats o x l1 c msgsize msg
    (reached_denied o (with_spec_cache x) sg1 hash1 c0 pre1 l1 c hreach1) hsz hreq hdeny

/-! ## Instances on the concrete setting -/

/-- C3 on the stub backends: the second check of "http://ok.example" on a
connection hits the cache and is answered without any backend call. -/
theorem cache_hit_skips_backends_witness :
    reached demo_options (with_spec_cache demo) "garbage".toList [] demo_world
        [(17, "http://ok.example".toList)] = some (demo_locals_cached, demo_world_cached) ∧
    (session_step demo_options (with_spec_cache demo) 17 "http://ok.example".toList
        demo_locals_cached demo_world_cached).1 =
      [Event.get_hash (request_of demo_options (with_spec_cache demo) 17
          "http://ok.example".toList).url,
        Event.in_cache demo_locals_cached.cachedb
          ((with_spec_cache demo).get_hash (request_of demo_options (with_spec_cache demo) 17
            "http://ok.example".toList).url) demo_options.cache_exp_secs,
        accept_reply demo_options (set_pointer demo_options demo_locals_cached)
          (decode demo_options (with_spec_cache demo) 17 "http://ok.example".toList).1] ∧
    (session_step demo_options (with_spec_cache demo) 17 "http://ok.example".toList
        demo_locals_cached demo_world_cached).1 =
      [Event.get_hash "http://ok.example".toList,
        Event.in_cache (some 0) "ok.exampl".toList 3600,
        Event.n2h2_accept (some "http://ok.example".toList)] :=
  ⟨rfl,
    (cache_hit_skips_backends demo_options (with_spec_cache demo) "garbage".toList []
      demo_world [(17, "http://ok.example".toList)] demo_locals_cached demo_world_cached 17
      "http://ok.example".toList rfl (by decide) (by decide) (by decide)
      (by decide)).2.1,
    by decide⟩

/-- C4 on the stub backends: the denied check of "http://blocked.example" makes no
call of `add_cache`. -/
theorem deny_never_cached_witness :
    (session_step demo_options (with_spec_cache demo) 22 "http://blocked.example".toList
        demo_locals demo_world).1.countP Event.isCacheWrite = 0 ∧
    (session_step demo_options (with_spec_cache demo) 22 "http://blocked.example".toList
        demo_locals demo_world).1 =
      [Event.get_hash "http://blocked.example".toList,
        Event.in_cache (some 0) "blocked.e".toList 3600,
        Event.blacklist_backend "http://blocked.example".toList,
        Event.proxy_backend "10.0.0.9".toList 3128 (some "Denied".toList)
          "http://blocked.example".toList,
        Event.n2h2_deny (some "http://blocked.example".toList)
          (Redirect.sg_redirect "garbage".toList)] :=
  ⟨List.countP_eq_zero.mpr (fun e he => by
      rw [(deny_never_cached demo_options (with_spec_cache demo) "garbage".toList []
        demo_world [] demo_locals demo_world 22 "http://blocked.example".toList rfl
        (by decide) (by decide)).1
        ⟨Event.n2h2_deny (some "http://blocked.example".toList)
          (Redirect.sg_redirect "garbage".toList), by decide, rfl⟩ e he]
      decide),
    by decide⟩

/-- C9 on the stub frontend: the probe "alive" is answered with the alive reply
only, and the message "xyz" of unknown type ends the session. -/
theorem only_url_checks_dispatch_witness :
    session_step demo_options (with_spec_cache demo) 5 "alive".toList demo_locals demo_world =
      ([Event.n2h2_alive (some "alive".toList)],
        some (set_pointer demo_options demo_locals, demo_world)) ∧
    session_step demo_options (with_spec_cache demo) 3 "xyz".toList demo_locals demo_world =
      ([Event.close_cache demo_locals.cachedb, Event.close_cli, Event.exit 1], none) :=
  ⟨(only_url_checks_dispatch demo_options (with_spec_cache demo) demo_locals demo_world 5
      "alive".toList (by decide)).2.1 rfl (by decide),
    ((only_url_checks_dispatch demo_options (with_spec_cache demo) demo_locals demo_world 3
      "xyz".toList (by decide)).1 (by decide)).1⟩

/-! ## Where the code departs from the claims -/

theorem deny_reply_squidguard (o : Options) (l : Locals) (msg : Msg) (sg : Str)
    (hs : o.squidguard ≠ 0) :
    deny_reply o l msg sg =
      match o.frontend with
      | Frontend.N2H2 => Event.n2h2_deny (deref l.n2h2_request msg) (Redirect.sg_redirect sg)
      | Frontend.WEBSNS =>
        Event.websns_deny (deref l.websns_request msg) (Redirect.sg_redirect sg) := by
  unfold deny_reply
  cases hf : o.frontend <;> simp [hs]

/-- C5 (the code at the failing input): under `-n -r http://block.example/ -f badsite
-p 10.0.0.9:3128:Denied -g` a URL denied by the proxy is answered with the buffer
`sg_redirect`, not with `redirect_url`: on a first request the buffer holds whatever
the stack held, after an earlier squidguard denial it holds that denial's redirect;
squidguard is not called for the request. In general the deny reply carries
`sg_redirect` whenever the squidguard backend is configured. -/
theorem proxy_denial_uses_sg_redirect :
    demo_options.redirect_url = some "http://block.example/".toList ∧
    (session_step demo_options (with_spec_cache demo) 22 "http://blocked.example".toList
        demo_locals demo_world).1 =
      [Event.get_hash "http://blocked.example".toList,
        Event.in_cache (some 0) "blocked.e".toList 3600,
        Event.blacklist_backend "http://blocked.example".toList,
        Event.proxy_backend "10.0.0.9".toList 3128 (some "Denied".toList)
          "http://blocked.example".toList,
        Event.n2h2_deny (some "http://blocked.example".toList)
          (Redirect.sg_redirect "garbage".toList)] ∧
    ((child demo_options (with_spec_cache demo) "garbage".toList [] demo_world
        [(21, "http://adult.example/".toList), (22, "http://blocked.example".toList)]).1.filter
        (fun e => e.isDeny || e.isSquidguard)) =
      [Event.squidguard_backend "10.0.0.1".toList "alice".toList "http://adult.example/".toList,
        Event.n2h2_deny (some "http://adult.example/".toList)
          (Redirect.sg_redirect "http://sg.example/adult".toList),
        Event.n2h2_deny (some "http://blocked.example".toList)
          (Redirect.sg_redirect "http://sg.example/adult".toList)] ∧
    (∀ (o : Options) (l : Locals) (msg : Msg) (sg : Str), o.squidguard ≠ 0 →
      deny_reply o l msg sg ≠
        Event.n2h2_deny (deref l.n2h2_request msg) (Redirect.redirect_url o.redirect_url) ∧
      deny_reply o l msg sg ≠
        Event.websns_deny (deref l.websns_request msg) (Redirect.redirect_url o.redirect_url)) := by
  refine ⟨rfl, by decide, by decide, ?_⟩
  intro o l msg sg hs
  rw [deny_reply_squidguard o l msg sg hs]
  cases o.frontend <;> simp

theorem file_lines_entry_lines (n : Nat) :
    file_lines (entry_lines n) = List.replicate n ['a'] := by
  induction n with
  | zero => rfl
  | succ n ih =>
    have h : file_lines ('\n' :: entry_lines n) = [] :: file_lines (entry_lines n) := by
      rw [file_lines, if_pos rfl]
    rw [entry_lines, file_lines, if_neg (by decide), h, ih, List.replicate_succ]

theorem file_entries_entry_lines (n : Nat) :
    file_entries (entry_lines n) = List.replicate n ['a'] := by
  unfold file_entries
  rw [file_lines_entry_lines]
  induction n with
  | zero => rfl
  | succ n ih =>
    have he : entry_of_line ['a'] = some ['a'] := by decide
    rw [List.replicate_succ, List.filterMap_cons, he, ih]

theorem entry_lines_mem (n : Nat) : ∀ a ∈ entry_lines n, a = 'a' ∨ a = '\n' := by
  induction n with
  | zero => intro a ha; simp [entry_lines] at ha
  | succ n ih =>
    intro a ha
    simp only [entry_lines, List.mem_cons] at ha
    rcases ha with rfl | rfl | ha
    · exact Or.inl rfl
    · exact Or.inr rfl
    · exact ih a ha

/-- The value `blacklist_load` returns and the rows it leaves, on a file whose
lines fit the line buffer: -1 as soon as the file has `BLACKLIST_MAXSIZE` entries or
more, with the first `BLACKLIST_MAXSIZE` entries stored and no row written past the
array. -/
theorem blacklist_load_return (U : Nat) (file : List Char) (hshort : ShortLines U file)
    (hnul : ∀ a ∈ file, a ≠ '\x00') :
    ∃ r bl, blacklist_load U (some file) emptyBlacklist = some (r, bl) ∧
      (r = -1 ↔ BLACKLIST_MAXSIZE ≤ (file_entries file).length) ∧
      (r = 0 ↔ (file_entries file).length < BLACKLIST_MAXSIZE) ∧
      ∀ i, bl i = if i < BLACKLIST_MAXSIZE then (file_entries file).getD i [] else [] := by
  refine ⟨_, _, blacklist_load_eq_store U file hshort hnul emptyBlacklist, ?_, ?_, fun i => ?_⟩
  · rw [store_entries_ret _ _ 0 (by decide)]
    by_cases h : 0 + (file_entries file).length < BLACKLIST_MAXSIZE
    · rw [if_pos h]
      exact ⟨fun h0 => absurd h0 (by decide), fun h1 => by omega⟩
    · rw [if_neg h]
      exact ⟨fun _ => by omega, fun _ => rfl⟩
  · rw [store_entries_ret _ _ 0 (by decide)]
    by_cases h : 0 + (file_entries file).length < BLACKLIST_MAXSIZE
    · rw [if_pos h]
      exact ⟨fun _ => by omega, fun _ => rfl⟩
    · rw [if_neg h]
      exact ⟨fun h0 => absurd h0 (by decide), fun h1 => by omega⟩
  · rw [store_entries_row _ _ 0 (by decide) i]
    by_cases hi : i < BLACKLIST_MAXSIZE
    · rw [if_pos hi]
      by_cases hl : i < (file_entries file).length
      · rw [if_pos ⟨Nat.zero_le _, hi, by omega⟩, Nat.sub_zero]
      · rw [if_neg (by omega), List.getD_eq_default _ _ (by omega)]
        rfl
    · rw [if_neg hi, if_neg (by omega)]
      rfl

/-- C7 (the code at the failing input): a file of exactly `BLACKLIST_MAXSIZE` entry
lines "a" fits the array, yet `blacklist_load` returns -1 on it whatever the size
of the line buffer (3 bytes at least, so that a line fits). -/
theorem blacklist_load_rejects_full_file :
    (file_entries (entry_lines BLACKLIST_MAXSIZE)).length = BLACKLIST_MAXSIZE ∧
    ∀ U, 3 ≤ U →
      ∃ bl, blacklist_load U (some (entry_lines BLACKLIST_MAXSIZE)) emptyBlacklist =
        some (-1, bl) := by
  have hlen : (file_entries (entry_lines BLACKLIST_MAXSIZE)).length = BLACKLIST_MAXSIZE := by
    rw [file_entries_entry_lines, List.length_replicate]
  refine ⟨hlen, fun U hU => ?_⟩
  have hshort : ShortLines U (entry_lines BLACKLIST_MAXSIZE) := by
    intro l hl
    rw [file_lines_entry_lines] at hl
    rw [List.eq_of_mem_replicate hl]
    simp only [List.length_singleton]
    omega
  have hnul : ∀ a ∈ entry_lines BLACKLIST_MAXSIZE, a ≠ '\x00' := by
    intro a ha
    rcases entry_lines_mem _ a ha with rfl | rfl <;> decide
  obtain ⟨r, bl, hload, hr, -, -⟩ := blacklist_load_return U _ hshort hnul
  have hr1 : r = -1 := hr.mpr (by omega)
  rw [hr1] at hload
  exact ⟨bl, hload⟩

/-- C8 (the code at the failing input): `main` hands `blacklist_backend` the
argument of `-f` itself. The file "badsite.com\n#comment\n\nother.com\n" loads as a
list on which http://good.com is allowed and http://badsite.com/page is denied; but
started with that file under the name `good`, the server denies http://good.com,
whatever lies in memory after the name and whether it can be read or not, and
`blacklist_load` is never called. Under the name `/etc/openufp/blacklist`
http://badsite.com/page is not denied when NUL bytes follow the name, and the
process faults when the memory after the name cannot be read. -/
theorem blacklist_file_name_is_matched :
    (blacklist_load 64 (some "badsite.com\n#comment\n\nother.com\n".toList) emptyBlacklist).map
        (fun r => (r.1, blacklist_backend r.2 "http://good.com".toList 0,
          blacklist_backend r.2 "http://badsite.com/page".toList 0)) = some (0, 0, 1) ∧
    (∀ (beyond : Nat → Option Str) (debug : Int),
      blacklist_backend_at (blacklist_rows "good".toList beyond) "http://good.com".toList
        debug = some 1) ∧
    (child file_options (with_spec_cache demo) "garbage".toList [] demo_world
        [(15, "http://good.com".toList)]).1 =
      [Event.open_cache,
        Event.get_hash "http://good.com".toList,
        Event.in_cache (some 0) "good.com".toList 3600,
        Event.blacklist_backend "http://good.com".toList,
        Event.n2h2_deny (some "http://good.com".toList)
          (Redirect.redirect_url (some "http://block.example/".toList))] ∧
    blacklist_backend_at (blacklist_rows "/etc/openufp/blacklist".toList (fun _ => some []))
      "http://badsite.com/page".toList 0 = some 0 ∧
    blacklist_backend_at (blacklist_rows "/etc/openufp/blacklist".toList (fun _ => none))
      "http://badsite.com/page".toList 0 = none := by
  refine ⟨by decide, ?_, by decide, by decide, by decide⟩
  intro beyond debug
  have hs : (strstr "http://good.com".toList "good".toList).isSome = true := by decide
  have hrow : blacklist_rows "good".toList beyond 0 = some "good".toList := rfl
  have hlen : strlen "good".toList > 0 := by decide
  have hi : 0 < BLACKLIST_MAXSIZE := by decide
  unfold blacklist_backend_at
  rw [blacklist_backend_loop_at, if_pos hi, hrow]
  simp only []
  rw [if_pos hlen, if_pos hs]

/-- C10 (the code at the failing input): under `-n -c 0 -f /etc/openufp/blacklist
-p 10.0.0.9:3128:Denied`, with unreadable memory after the argument of `-f`, the
check of http://x.example/ finds the cache lookup failing (-1) and then faults inside
`blacklist_backend`: the calls are `get_hash`, `in_cache`, `blacklist_backend` and
nothing more, no reply is sent, the proxy is not consulted and the child is gone. What
the code does hold to: a lookup result of -1 is followed by exactly what follows a
result of 0. -/
theorem cache_failure_check_faults :
    reached fault_options (with_spec_cache demo) "garbage".toList [] demo_world [] =
      some (demo_locals_nocache, demo_world) ∧
    (lookup fault_options (with_spec_cache demo) demo_locals_nocache
      (request_of fault_options (with_spec_cache demo) 17 "http://x.example/".toList).url
      demo_world).1 = -1 ∧
    session_step fault_options (with_spec_cache demo) 17 "http://x.example/".toList
        demo_locals_nocache demo_world =
      ([Event.get_hash "http://x.example/".toList,
        Event.in_cache none "x.example".toList 0,
        Event.blacklist_backend "http://x.example/".toList,
        Event.sigsegv], none) ∧
    (∀ (W : Type) (o : Options) (x : Externals W) (msg : Msg) (request : uf_request)
        (l : Locals) (hash : Hash) (w : W),
      after_lookup o x msg request l hash (-1) w = after_lookup o x msg request l hash 0 w) := by
  refine ⟨rfl, by decide, rfl, ?_⟩
  intro W o x msg request l hash w
  exact after_lookup_fail o x msg request l hash w

end OpenUFP
